import Mathlib

/-!
Verification of `src/core/Db.cpp`

A shallow embedding of the persistence layer (`CDatabase`) and the properties of
its validator, its challenge and token repositories and its expiry sweep.

The relational engine is SQLite, driven through `sqlite3_exec` with SQL text
built by `fmt::format`.  The embedding keeps the two tables as lists of rows and
gives every statement shape the source issues (`INSERT INTO ... VALUES`,
`SELECT * ... WHERE key = "..."`, `DELETE ... WHERE key = "..."`,
`DELETE ... WHERE epoch < n`) its effect on those lists.  Clock readings
(`std::chrono::steady_clock::now()`, `std::time(nullptr)`) are explicit
arguments.

What is taken from outside `Db.cpp`:

* `Db.hpp` is not part of the sources read here.  The field types of the two
  entry structs are those the source forces: `difficulty` receives the result
  of `std::stoi` (an `int`), `epoch` the result of `std::stoull` (unsigned
  64-bit).
* The engine follows SQLite's documented behaviour: both tables exist with the
  schema the constructor creates; a double-quoted text that names no column is a
  string literal; integers are signed 64-bit and a decimal literal outside that
  range is a floating-point literal; `sqlite3_exec` hands every cell to the
  callback as text.
-/

namespace Db

/-! ## Constants (Db.cpp, lines 12-16) -/

/-- Constant `DB_TIME_BEFORE_CLEANUP_MS = 1000 * 60 * 10`. -/
def DB_TIME_BEFORE_CLEANUP_MS : Nat := 1000 * 60 * 10

/-- Constant `DB_TOKEN_LIFE_LENGTH_S = 60 * 60`. -/
def DB_TOKEN_LIFE_LENGTH_S : Nat := 60 * 60

/-- Constant `DB_CHALLENGE_LIFE_LENGTH_S = 60 * 10`. -/
def DB_CHALLENGE_LIFE_LENGTH_S : Nat := 60 * 10

/-- Constant `DB_SCHEMA_VERSION = 2`. -/
def DB_SCHEMA_VERSION : Nat := 2

/-! ## Validator (Db.cpp, lines 37-39) -/

/-- Function `isHashValid`: `std::all_of` over the characters with the predicate
`(c >= 'a' && c <= 'f') || std::isdigit(c)`.  On an empty range `std::all_of`
is true.  A character outside ASCII is a run of bytes above `0x7f` in the C++
string, none of them a digit or in `a-f`, and is rejected here as there. -/
def isHashValid (sv : String) : Bool :=
  sv.toList.all (fun c => (decide ('a' ≤ c) && decide (c ≤ 'f')) || c.isDigit)

/-- The sixteen characters the specification allows in an identifier. -/
def hexChars : List Char := "0123456789abcdef".toList

/-- Specification-side predicate: every character of `s` is one of `0-9`, `a-f`. -/
def IsLowerHex (s : String) : Prop := ∀ c ∈ s.toList, c ∈ hexChars

instance (s : String) : Decidable (IsLowerHex s) := by
  unfold IsLowerHex; infer_instance

/-! ## Number formatting and parsing

`fmt::format("{}", n)` and the engine both print integers in decimal;
`std::stoi` and `std::stoull` read them back with the `strtol` family's rules. -/

/-- The character of a decimal digit `d < 10`. -/
def digitChar (d : Nat) : Char := Char.ofNat (48 + d)

/-- Decimal digits of `n`, most significant first; `fuel` bounds their number. -/
def decimalDigits : Nat → Nat → List Char
  | 0, _ => []
  | fuel + 1, n =>
    if n < 10 then [digitChar n] else decimalDigits fuel (n / 10) ++ [digitChar (n % 10)]

/-- Decimal text of a natural number. -/
def fmtNat (n : Nat) : List Char := decimalDigits (n + 1) n

/-- Decimal text of an integer, with a leading `-` when negative. -/
def fmtInt (i : Int) : List Char :=
  if i < 0 then '-' :: fmtNat i.natAbs else fmtNat i.natAbs

/-- The exceptions `std::stoi` / `std::stoull` throw. -/
inductive CppException where
  | invalid_argument
  | out_of_range
deriving DecidableEq, Repr

/-- The outcome of a call that either returns a value or throws. -/
inductive Outcome (α : Type) where
  | returns (a : α)
  | throws (e : CppException)
deriving DecidableEq, Repr

/-- Function `isspace` in the C locale. -/
def isspace (c : Char) : Bool :=
  c.toNat == 32 || (decide (9 ≤ c.toNat) && decide (c.toNat ≤ 13))

/-- Value of a run of decimal digits. -/
def digitsValue (ds : List Char) : Nat :=
  ds.foldl (fun acc c => acc * 10 + (c.toNat - 48)) 0

/-- The optional sign in front of the digits: `true` for `-`. -/
def splitSign : List Char → Bool × List Char
  | '-' :: t => (true, t)
  | '+' :: t => (false, t)
  | cs => (false, cs)

/-- The scan shared by `strtol` and `strtoull` in base 10: skip leading white
space, take an optional sign, then the longest run of digits.  The result is the
sign (`true` for `-`) and the magnitude, or `none` when there is no digit. -/
def scanInteger (cs : List Char) : Option (Bool × Nat) :=
  let signed := splitSign (cs.dropWhile isspace)
  let ds := signed.2.takeWhile Char.isDigit
  if ds.isEmpty then none else some (signed.1, digitsValue ds)

/-- Function `std::stoi`: `invalid_argument` when no number can be read, `out_of_range`
when the value does not fit an `int`. -/
def stoi (s : String) : Outcome Int :=
  match scanInteger s.toList with
  | none => .throws .invalid_argument
  | some (neg, m) =>
    let v : Int := if neg then -(m : Int) else (m : Int)
    if -(2 : Int) ^ 31 ≤ v ∧ v < (2 : Int) ^ 31 then .returns v else .throws .out_of_range

/-- Function `std::stoull`: `invalid_argument` when no number can be read, `out_of_range`
when the magnitude exceeds `ULLONG_MAX`; a leading `-` negates modulo `2^64`. -/
def stoull (s : String) : Outcome Nat :=
  match scanInteger s.toList with
  | none => .throws .invalid_argument
  | some (neg, m) =>
    if m < 2 ^ 64 then .returns (if neg then (2 ^ 64 - m) % 2 ^ 64 else m)
    else .throws .out_of_range

/-! ## Engine values

What SQLite holds in a cell and how `sqlite3_exec` hands it to the callback. -/

/-- A cell of a column declared `INTEGER`.  SQLite integers are signed 64-bit;
a decimal literal above `9223372036854775807` is read as a floating-point
literal and stays a floating-point cell (`real`, carrying its value, which for
such literals is a whole number); text that is not numeric stays text. -/
inductive SqlValue where
  | integer (i : Int)
  | real (d : Nat)
  | text (s : String)
deriving DecidableEq, Repr

/-- The double nearest to `n` for `2^63 ≤ n < 2^64`, the range in which an
unsigned 64-bit literal leaves the engine's integer range: doubles are the
multiples of `2^11` there, ties go to the even significand.  This is the
correctly rounded value; SQLite's own text-to-double routine is not correctly
rounded in every release and can land one step away for some literals.  Nothing
below relies on more than the value being a whole number of at least `2^63`,
and on `2^63` itself being exact. -/
def nearestDouble (n : Nat) : Nat :=
  let q := n / 2048
  let r := n % 2048
  if r < 1024 then q * 2048
  else if r = 1024 ∧ q % 2 = 0 then q * 2048
  else (q + 1) * 2048

/-- The value of an unsigned decimal literal `n` in SQL text, as printed by
`fmt::format("{}", n)` for a `uint64_t`. -/
def sqlIntegerLiteral (n : Nat) : SqlValue :=
  if n < 2 ^ 63 then .integer (n : Int) else .real (nearestDouble n)

/-- Drop the zeros at the end of a digit run. -/
def stripTrailingZeros (ds : List Char) : List Char :=
  (ds.reverse.dropWhile (fun c => c == '0')).reverse

/-- Text of a whole-valued floating-point cell, SQLite's `%!.15g`: at most 15
significant digits, plain notation below `10^15`, exponent notation from there
on, trailing zeros removed but one digit kept after the point. -/
def fmtReal (d : Nat) : List Char :=
  if d < 10 ^ 15 then fmtNat d ++ ['.', '0']
  else
    let k := (fmtNat d).length
    let scaled := (d + 5 * 10 ^ (k - 16)) / 10 ^ (k - 15)
    let mant := if scaled < 10 ^ 15 then scaled else scaled / 10
    let expo := if scaled < 10 ^ 15 then k - 1 else k
    let ds := fmtNat mant
    let frac := stripTrailingZeros ds.tail
    ds.take 1 ++ ['.'] ++ (if frac.isEmpty then ['0'] else frac) ++ ['e', '+'] ++
      (if expo < 10 then '0' :: fmtNat expo else fmtNat expo)

/-- The text `sqlite3_exec` passes to its callback for a cell. -/
def columnText : SqlValue → String
  | .integer i => String.mk (fmtInt i)
  | .real d => String.mk (fmtReal d)
  | .text s => s

/-- SQLite's `<` between a cell and the value it is compared with: numbers
compare by value, every number sorts before every text. -/
def sqlLt : SqlValue → SqlValue → Bool
  | .integer a, .integer b => decide (a < b)
  | .integer a, .real b => decide (a < (b : Int))
  | .real a, .integer b => decide ((a : Int) < b)
  | .real a, .real b => decide (a < b)
  | .integer _, .text _ => true
  | .real _, .text _ => true
  | .text _, .integer _ => false
  | .text _, .real _ => false
  | .text a, .text b => decide (a < b)

/-! ## Data model -/

/-- Struct `SDatabaseChallengeEntry`, fields in the order of the designated
initialiser at Db.cpp line 151; `difficulty` is an `int`, `epoch` a `uint64_t`. -/
structure SDatabaseChallengeEntry where
  nonce : String
  difficulty : Int
  epoch : Nat
  fingerprint : String
deriving DecidableEq, Repr

/-- Struct `SDatabaseTokenEntry`, fields in the order of the designated initialiser at
Db.cpp line 238; `epoch` is a `uint64_t`. -/
structure SDatabaseTokenEntry where
  token : String
  epoch : Nat
  fingerprint : String
deriving DecidableEq, Repr

/-- A row of `challenges (nonce TEXT, fingerprint TEXT, difficulty INTEGER,
epoch INTEGER, PRIMARY KEY (nonce))`. -/
structure ChallengeRow where
  nonce : String
  fingerprint : String
  difficulty : SqlValue
  epoch : SqlValue
deriving DecidableEq, Repr

/-- A row of `tokens (token TEXT, fingerprint TEXT, epoch INTEGER,
PRIMARY KEY (token))`. -/
structure TokenRow where
  token : String
  fingerprint : String
  epoch : SqlValue
deriving DecidableEq, Repr

/-- The store: the two tables behind `m_db` and `m_lastDbCleanup`, the latter as
its millisecond count (what `shouldCleanupDb` reads off it). -/
structure CDatabase where
  challenges : List ChallengeRow
  tokens : List TokenRow
  m_lastDbCleanup : Int
deriving DecidableEq, Repr

/-- The columns of a challenge row as the `SELECT *` callback receives them. -/
def ChallengeRow.columns (r : ChallengeRow) : List String :=
  [r.nonce, r.fingerprint, columnText r.difficulty, columnText r.epoch]

/-- The columns of a token row as the `SELECT *` callback receives them. -/
def TokenRow.columns (r : TokenRow) : List String :=
  [r.token, r.fingerprint, columnText r.epoch]

/-! ## Statements

The effect of each SQL statement the source sends to the engine.  String values
are written between double quotes; the validator admits only `0-9a-f`, so such a
text never names a column and the engine reads it as a string literal. -/

/-- Statement `INSERT INTO challenges VALUES (...)`: refused (error message, table
untouched) when the primary key `nonce` is already present, otherwise the row is
added. -/
def insertChallengeRow (row : ChallengeRow) (table : List ChallengeRow) : List ChallengeRow :=
  if table.any (fun r => r.nonce == row.nonce) then table else table ++ [row]

/-- Statement `INSERT INTO tokens VALUES (...)`: refused when the primary key `token` is
already present, otherwise the row is added. -/
def insertTokenRow (row : TokenRow) (table : List TokenRow) : List TokenRow :=
  if table.any (fun r => r.token == row.token) then table else table ++ [row]

/-- Statement `SELECT * FROM challenges WHERE nonce = "..."` with the callback of
Db.cpp lines 136-145: every column of every matching row is pushed onto
`result.result`. -/
def selectChallenges (nonce : String) (table : List ChallengeRow) : List String :=
  (table.filter (fun r => r.nonce == nonce)).flatMap ChallengeRow.columns

/-- Statement `SELECT * FROM tokens WHERE token = "..."` with the callback of
Db.cpp lines 223-232. -/
def selectTokens (token : String) (table : List TokenRow) : List String :=
  (table.filter (fun r => r.token == token)).flatMap TokenRow.columns

/-- Statement `DELETE FROM tokens WHERE token = "..."`. -/
def deleteTokenRows (token : String) (table : List TokenRow) : List TokenRow :=
  table.filter (fun r => !(r.token == token))

/-- Statement `DELETE FROM tokens WHERE epoch < cutoff`. -/
def deleteTokensBefore (cutoff : SqlValue) (table : List TokenRow) : List TokenRow :=
  table.filter (fun r => !(sqlLt r.epoch cutoff))

/-- Statement `DELETE FROM challenges WHERE epoch < cutoff`. -/
def deleteChallengesBefore (cutoff : SqlValue) (table : List ChallengeRow) :
    List ChallengeRow :=
  table.filter (fun r => !(sqlLt r.epoch cutoff))

/-- Conversion of a signed 64-bit value to `uint64_t`. -/
def toUInt64 (i : Int) : Nat := (i % (2 : Int) ^ 64).toNat

/-! ## Operations of `CDatabase` -/

/-- Method `CDatabase::addChallenge` (Db.cpp, lines 102-120).  `difficulty` is an
`int`, so its literal is always inside the engine's integer range. -/
def addChallenge (entry : SDatabaseChallengeEntry) (db : CDatabase) : CDatabase :=
  if !isHashValid entry.nonce then db
  else if !isHashValid entry.fingerprint then db
  else
    { db with
      challenges :=
        insertChallengeRow
          { nonce := entry.nonce, fingerprint := entry.fingerprint,
            difficulty := .integer entry.difficulty,
            epoch := sqlIntegerLiteral entry.epoch }
          db.challenges }

/-- Method `CDatabase::getChallenge` (Db.cpp, lines 122-152).  The initialisers of the
returned entry are evaluated in the order written: `std::stoi` on column 2, then
`std::stoull` on column 3. -/
def getChallenge (nonce : String) (db : CDatabase) :
    CDatabase × Outcome (Option SDatabaseChallengeEntry) :=
  if !isHashValid nonce then (db, .returns none)
  else
    let result := selectChallenges nonce db.challenges
    if result.length < 4 then (db, .returns none)
    else
      match stoi (result.getD 2 "") with
      | .throws e => (db, .throws e)
      | .returns difficulty =>
        match stoull (result.getD 3 "") with
        | .throws e => (db, .throws e)
        | .returns epoch =>
          (db, .returns (some
            { nonce := nonce, difficulty := difficulty, epoch := epoch,
              fingerprint := result.getD 1 "" }))

/-- Method `CDatabase::dropChallenge` (Db.cpp, lines 154-168).  The statement it sends
is `DELETE FROM tokens WHERE token = "<nonce>"`. -/
def dropChallenge (nonce : String) (db : CDatabase) : CDatabase :=
  if !isHashValid nonce then db
  else { db with tokens := deleteTokenRows nonce db.tokens }

/-- Method `CDatabase::addToken` (Db.cpp, lines 170-188). -/
def addToken (entry : SDatabaseTokenEntry) (db : CDatabase) : CDatabase :=
  if !isHashValid entry.token then db
  else if !isHashValid entry.fingerprint then db
  else
    { db with
      tokens :=
        insertTokenRow
          { token := entry.token, fingerprint := entry.fingerprint,
            epoch := sqlIntegerLiteral entry.epoch }
          db.tokens }

/-- Method `CDatabase::dropToken` (Db.cpp, lines 190-204). -/
def dropToken (token : String) (db : CDatabase) : CDatabase :=
  if !isHashValid token then db
  else { db with tokens := deleteTokenRows token db.tokens }

/-- Method `CDatabase::shouldCleanupDb` (Db.cpp, lines 241-249).  `steadyNow` is the
millisecond count of `steady_clock::now()`; the signed difference is compared
with the `uint64_t` constant, hence converted to `uint64_t`. -/
def shouldCleanupDb (steadyNow : Int) (db : CDatabase) : Bool :=
  decide (toUInt64 (steadyNow - db.m_lastDbCleanup) > DB_TIME_BEFORE_CLEANUP_MS)

/-- Method `CDatabase::cleanupDb` (Db.cpp, lines 251-276).  `steadyNow` is the reading
of `steady_clock::now()`, `wallNow` the value of `std::time(nullptr)`.  Both
cut-offs are `TIME - <uint64_t constant>`, computed in `uint64_t` and printed
unsigned into the statement. -/
def cleanupDb (steadyNow wallNow : Int) (db : CDatabase) : CDatabase :=
  { challenges :=
      deleteChallengesBefore
        (sqlIntegerLiteral (toUInt64 (wallNow - (DB_CHALLENGE_LIFE_LENGTH_S : Int))))
        db.challenges
    tokens :=
      deleteTokensBefore
        (sqlIntegerLiteral (toUInt64 (wallNow - (DB_TOKEN_LIFE_LENGTH_S : Int))))
        db.tokens
    m_lastDbCleanup := steadyNow }

/-- Method `CDatabase::getToken` (Db.cpp, lines 206-239).  `steadyAtCheck` is the clock
reading inside `shouldCleanupDb`, `steadyAtSweep` and `wallNow` the readings
inside `cleanupDb` when it runs. -/
def getToken (steadyAtCheck steadyAtSweep wallNow : Int) (token : String) (db : CDatabase) :
    CDatabase × Outcome (Option SDatabaseTokenEntry) :=
  if !isHashValid token then (db, .returns none)
  else
    let db1 := if shouldCleanupDb steadyAtCheck db then cleanupDb steadyAtSweep wallNow db else db
    let result := selectTokens token db1.tokens
    if result.length < 3 then (db1, .returns none)
    else
      match stoull (result.getD 2 "") with
      | .throws e => (db1, .throws e)
      | .returns epoch =>
        (db1, .returns (some
          { token := token, epoch := epoch, fingerprint := result.getD 1 "" }))

/-! ## Concrete stores and entries for the worked examples -/

/-- A store with both tables empty that has never been swept. -/
def emptyStore : CDatabase := { challenges := [], tokens := [], m_lastDbCleanup := 0 }

/-- A well-formed challenge entry. -/
def sampleChallenge : SDatabaseChallengeEntry :=
  { nonce := "ab", difficulty := 4, epoch := 1000, fingerprint := "cd" }

/-- A second challenge entry with the nonce of `sampleChallenge` and another payload. -/
def rivalChallenge : SDatabaseChallengeEntry :=
  { nonce := "ab", difficulty := 7, epoch := 2000, fingerprint := "ef" }

/-- A challenge entry whose epoch is `2^63`, the first value outside the
engine's integer range. -/
def farFutureChallenge : SDatabaseChallengeEntry :=
  { nonce := "ab", difficulty := 4, epoch := 9223372036854775808, fingerprint := "cd" }

/-- A well-formed token entry granted at second 99. -/
def sampleToken : SDatabaseTokenEntry :=
  { token := "ab", epoch := 99, fingerprint := "cd" }

/-- A second token entry with the key of `sampleToken` and another payload. -/
def rivalToken : SDatabaseTokenEntry :=
  { token := "ab", epoch := 150, fingerprint := "ef" }

/-- A token entry under another key, granted at second 9000. -/
def otherToken : SDatabaseTokenEntry :=
  { token := "0f", epoch := 9000, fingerprint := "cd" }

/-- A store holding `sampleToken` (granted at second 99) and `otherToken` (granted
at second 9000), and `sampleChallenge` (issued at second 1000). -/
def busyStore : CDatabase :=
  addChallenge sampleChallenge (addToken otherToken (addToken sampleToken emptyStore))

/-- Specification-side expiry: a row is expired at wall-clock second `now` once
`now - epoch > lifetime`; a cell that holds no number is never expired. -/
def expired (lifetime : Nat) (now : Int) : SqlValue → Bool
  | .integer e => decide (now - e > (lifetime : Int))
  | .real d => decide (now - (d : Int) > (lifetime : Int))
  | .text _ => false

end Db

namespace Db

/-! ## The sweep gate inside `getToken` -/

/-- The branch at Db.cpp lines 207-211: `getToken` calls `cleanupDb` exactly when
the token passes `isHashValid` and `shouldCleanupDb` answers true. -/
def getTokenRunsCleanup (steadyAtCheck : Int) (token : String) (db : CDatabase) : Bool :=
  isHashValid token && shouldCleanupDb steadyAtCheck db

/-! ## Sequences of calls -/

/-- One call on the store, with its arguments and the clock readings it takes. -/
inductive Operation where
  | addChallenge (entry : SDatabaseChallengeEntry)
  | addToken (entry : SDatabaseTokenEntry)
  | getChallenge (nonce : String)
  | getToken (steadyAtCheck steadyAtSweep wallNow : Int) (token : String)
  | dropChallenge (nonce : String)
  | dropToken (token : String)
  | cleanupDb (steadyNow wallNow : Int)
deriving DecidableEq, Repr

/-- The store after one call. -/
def Operation.apply : Operation → CDatabase → CDatabase
  | .addChallenge entry, db => Db.addChallenge entry db
  | .addToken entry, db => Db.addToken entry db
  | .getChallenge nonce, db => (Db.getChallenge nonce db).1
  | .getToken steadyAtCheck steadyAtSweep wallNow token, db =>
    (Db.getToken steadyAtCheck steadyAtSweep wallNow token db).1
  | .dropChallenge nonce, db => Db.dropChallenge nonce db
  | .dropToken token, db => Db.dropToken token db
  | .cleanupDb steadyNow wallNow, db => Db.cleanupDb steadyNow wallNow db

/-- The store after a finite sequence of calls, first call first. -/
def runOperations (ops : List Operation) (db : CDatabase) : CDatabase :=
  ops.foldl (fun s op => op.apply s) db

/-- Specification-side charset `[0-9a-f]+`: not empty and lowercase hex only. -/
def MatchesHexPlus (s : String) : Prop := 0 < s.length ∧ IsLowerHex s

instance (s : String) : Decidable (MatchesHexPlus s) := by
  unfold MatchesHexPlus; infer_instance

/-- Every identifier held in either table satisfies `p`. -/
def StoredIdentifiers (p : String → Prop) (db : CDatabase) : Prop :=
  (∀ r ∈ db.challenges, p r.nonce ∧ p r.fingerprint) ∧
  (∀ r ∈ db.tokens, p r.token ∧ p r.fingerprint)

/-! ## Construction (Db.cpp, lines 19-25 and 41-95) -/

/-- What the constructor finds in the data directory: the tables of `data.db`
when that file exists, and the text of the `schema` marker when that file
exists. -/
structure DataDir where
  dbFile : Option (List ChallengeRow × List TokenRow)
  schemaFile : Option String
deriving DecidableEq, Repr

/-- Function `readFileAsText` (Db.cpp, lines 19-25) on the content of the file: one
trailing newline is dropped.  On an empty file the source calls `back()` on an
empty string; the text stays empty. -/
def readFileAsText (content : String) : String :=
  if content.toList.getLast? = some '\n' then String.mk content.toList.dropLast else content

/-- Modelled from the spec: the initial value of `m_lastDbCleanup`.  The member is
declared in `Db.hpp`, which is not among the sources; the specification describes
it as the default-constructed steady-clock time point, whose millisecond count
is 0. -/
def neverSwept : Int := 0

/-- Lines 63-94 of the constructor: the old database file is removed, a new one is
opened, `DB_SCHEMA_VERSION` is written to the marker and both tables are created
empty. -/
def freshInitialisation : CDatabase × DataDir :=
  ({ challenges := [], tokens := [], m_lastDbCleanup := neverSwept },
   { dbFile := some ([], []), schemaFile := some (String.mk (fmtNat DB_SCHEMA_VERSION)) })

/-- Constructor `CDatabase::CDatabase` (Db.cpp, lines 41-95), with `sqlite3_open`
succeeding.  When the database file and the marker both exist the marker goes
through `readFileAsText` and `std::stoi`, whose exceptions nothing catches; the
`int` is compared with the `uint64_t` constant; on a match the database is
opened as it is and `cleanupDb` runs once.  Every other path ends in the fresh
initialisation. -/
def constructCDatabase (steadyNow wallNow : Int) (dir : DataDir) :
    Outcome (CDatabase × DataDir) :=
  match dir.dbFile with
  | some (challenges, tokens) =>
    match dir.schemaFile with
    | some marker =>
      match stoi (readFileAsText marker) with
      | .throws e => .throws e
      | .returns schema =>
        if toUInt64 schema = DB_SCHEMA_VERSION then
          let db := cleanupDb steadyNow wallNow
            { challenges := challenges, tokens := tokens, m_lastDbCleanup := neverSwept }
          .returns (db, { dbFile := some (db.challenges, db.tokens), schemaFile := some marker })
        else .returns freshInitialisation
    | none => .returns freshInitialisation
  | none => .returns freshInitialisation

/-! ## More concrete stores for the worked examples -/

/-- A data directory whose database holds the rows of `busyStore`, with the given
marker text. -/
def busyDir (marker : Option String) : DataDir :=
  { dbFile := some (busyStore.challenges, busyStore.tokens), schemaFile := marker }

/-- A store, as an existing database file may contain it, whose `ab` challenge has
the text `abc` in its difficulty column and whose `ab` token has the text `soon`
in its epoch column. -/
def unparsableStore : CDatabase :=
  { challenges :=
      [{ nonce := "ab", fingerprint := "cd", difficulty := .text "abc", epoch := .integer 1000 }]
    tokens := [{ token := "ab", fingerprint := "cd", epoch := .text "soon" }]
    m_lastDbCleanup := 0 }

/-- A store, as an existing database file may contain it, whose only row is an `ab`
challenge with difficulty 2147483648, one above the largest `int`; the tokens
table is empty. -/
def outOfRangeStore : CDatabase :=
  { challenges :=
      [{ nonce := "ab", fingerprint := "cd", difficulty := .integer 2147483648,
         epoch := .integer 1000 }]
    tokens := []
    m_lastDbCleanup := 0 }

/-- A store, as an existing database file may contain it, whose only row is an `ab`
challenge with a readable difficulty and the text `never` in its epoch column. -/
def unparsableEpochStore : CDatabase :=
  { challenges :=
      [{ nonce := "ab", fingerprint := "cd", difficulty := .integer 4, epoch := .text "never" }]
    tokens := []
    m_lastDbCleanup := 0 }

/-- An entry the validator accepts although its nonce and fingerprint are empty. -/
def emptyNonceChallenge : SDatabaseChallengeEntry :=
  { nonce := "", difficulty := 1, epoch := 1000, fingerprint := "" }

end Db
namespace Db

theorem char_eq_of_toNat {c d : Char} (h : c.toNat = d.toNat) : c = d := by
  apply Char.ext
  apply UInt32.ext
  exact h

theorem hexChar_iff (c : Char) :
    ((decide ('a' ≤ c) && decide (c ≤ 'f')) || c.isDigit) = true ↔ c ∈ hexChars := by
  constructor
  · intro h
    simp only [Char.isDigit, Bool.or_eq_true, Bool.and_eq_true, decide_eq_true_eq, Char.le_def,
      ge_iff_le, UInt32.le_def] at h
    have h2 : (97 ≤ c.toNat ∧ c.toNat ≤ 102) ∨ (48 ≤ c.toNat ∧ c.toNat ≤ 57) := by
      rcases h with ⟨h1, h2⟩ | ⟨h1, h2⟩
      · left; exact ⟨h1, h2⟩
      · right; exact ⟨h1, h2⟩
    have key : ∀ n, ((97 ≤ n ∧ n ≤ 102) ∨ (48 ≤ n ∧ n ≤ 57)) → c.toNat = n → c ∈ hexChars := by
      intro n hn hc
      have hmem : n ∈ hexChars.map Char.toNat := by
        rcases hn with ⟨a, b⟩ | ⟨a, b⟩ <;> interval_cases n <;> decide
      obtain ⟨d, hd, hdn⟩ := List.mem_map.mp hmem
      have hcd : c = d := char_eq_of_toNat (by rw [hc, hdn])
      rw [hcd]; exact hd
    exact key _ h2 rfl
  · intro h
    have hall : ∀ d ∈ hexChars, ((decide ('a' ≤ d) && decide (d ≤ 'f')) || d.isDigit) = true := by
      decide
    exact hall c h

theorem isHashValid_iff (s : String) : isHashValid s = true ↔ IsLowerHex s := by
  unfold isHashValid IsLowerHex
  rw [List.all_eq_true]
  constructor
  · intro h c hc; exact (hexChar_iff c).mp (h c hc)
  · intro h c hc; exact (hexChar_iff c).mpr (h c hc)

theorem isHashValid_false_iff (s : String) : isHashValid s = false ↔ ¬ IsLowerHex s := by
  rw [← isHashValid_iff]; simp

/-! digits -/

theorem digitChar_props : ∀ d, d < 10 →
    (digitChar d).isDigit = true ∧ (digitChar d).toNat - 48 = d ∧ isspace (digitChar d) = false ∧
      digitChar d ≠ '-' ∧ digitChar d ≠ '+' := by
  decide

theorem decimalDigits_ne_nil (fuel n : Nat) : decimalDigits (fuel + 1) n ≠ [] := by
  unfold decimalDigits
  split <;> simp

theorem decimalDigits_isDigit (fuel n : Nat) : ∀ c ∈ decimalDigits fuel n, c.isDigit = true := by
  induction fuel generalizing n with
  | zero => intro c hc; simp [decimalDigits] at hc
  | succ f ih =>
    intro c hc
    unfold decimalDigits at hc
    split at hc
    · rename_i hlt
      simp only [List.mem_singleton] at hc
      rw [hc]; exact (digitChar_props n hlt).1
    · simp only [List.mem_append, List.mem_singleton] at hc
      rcases hc with hc | hc
      · exact ih _ c hc
      · rw [hc]; exact (digitChar_props _ (Nat.mod_lt _ (by decide))).1

theorem digitsValue_append_singleton (ds : List Char) (c : Char) :
    digitsValue (ds ++ [c]) = digitsValue ds * 10 + (c.toNat - 48) := by
  simp [digitsValue, List.foldl_append]

theorem digitsValue_decimalDigits (fuel n : Nat) (h : n < 10 ^ fuel) :
    digitsValue (decimalDigits fuel n) = n := by
  induction fuel generalizing n with
  | zero => simp at h; subst h; simp [decimalDigits, digitsValue]
  | succ f ih =>
    unfold decimalDigits
    split
    · rename_i hlt
      simp [digitsValue, (digitChar_props n hlt).2.1]
    · rw [digitsValue_append_singleton, ih, (digitChar_props _ (Nat.mod_lt _ (by decide))).2.1]
      · omega
      · rw [pow_succ] at h; omega

theorem digitsValue_fmtNat (n : Nat) : digitsValue (fmtNat n) = n := by
  unfold fmtNat
  apply digitsValue_decimalDigits
  exact lt_trans (Nat.lt_succ_self n) (Nat.lt_pow_self (by decide) _)

theorem isDigit_toNat {c : Char} (h : c.isDigit = true) : 48 ≤ c.toNat ∧ c.toNat ≤ 57 := by
  simp only [Char.isDigit, Bool.and_eq_true, decide_eq_true_eq, ge_iff_le, UInt32.le_def] at h
  exact h

theorem takeWhile_eq_self_of_all {α : Type} (p : α → Bool) (l : List α)
    (h : ∀ x ∈ l, p x = true) : l.takeWhile p = l := by
  induction l with
  | nil => rfl
  | cons a t ih =>
    have ha : p a = true := h a (by simp)
    simp only [List.takeWhile, ha]
    rw [ih (fun x hx => h x (by simp [hx]))]

theorem splitSign_of_digit (c : Char) (t : List Char) (hc : c.isDigit = true) :
    splitSign (c :: t) = (false, c :: t) := by
  have hr := isDigit_toNat hc
  unfold splitSign
  split
  · rename_i heq; cases heq; exact absurd hr (by decide)
  · rename_i heq; cases heq; exact absurd hr (by decide)
  · rfl

theorem scanInteger_of_digits (ds : List Char) (hne : ds ≠ [])
    (hdig : ∀ c ∈ ds, c.isDigit = true) : scanInteger ds = some (false, digitsValue ds) := by
  obtain ⟨c, t, hct⟩ := List.exists_cons_of_ne_nil hne
  have hc : c.isDigit = true := hdig c (by rw [hct]; simp)
  have hr := isDigit_toNat hc
  have hsp : isspace c = false := by
    simp only [isspace, Bool.or_eq_false_iff, beq_eq_false_iff_ne, Bool.and_eq_false_iff,
      decide_eq_false_iff_not]
    omega
  have htw : List.takeWhile Char.isDigit (c :: t) = c :: t :=
    takeWhile_eq_self_of_all _ _ (by rw [← hct]; exact hdig)
  subst hct
  have hbody : List.dropWhile isspace (c :: t) = c :: t := by
    simp [List.dropWhile, hsp]
  unfold scanInteger
  simp only [hbody, splitSign_of_digit c t hc, htw]
  simp

theorem scanInteger_fmtNat (n : Nat) : scanInteger (fmtNat n) = some (false, n) := by
  have h := scanInteger_of_digits (fmtNat n) (decimalDigits_ne_nil n n)
    (decimalDigits_isDigit _ _)
  rw [h, digitsValue_fmtNat]

theorem stoull_fmtNat (n : Nat) (h : n < 2 ^ 64) : stoull (String.mk (fmtNat n)) = .returns n := by
  unfold stoull
  simp only [String.toList, scanInteger_fmtNat]
  rw [if_pos h]
  simp

theorem stoi_fmtNat (n : Nat) (h : n < 2 ^ 31) :
    stoi (String.mk (fmtNat n)) = .returns (n : Int) := by
  unfold stoi
  simp only [String.toList, scanInteger_fmtNat]
  have h1 : -(2 : Int) ^ 31 ≤ (n : Int) := by
    have : (0 : Int) ≤ (n : Int) := Int.ofNat_nonneg n
    omega
  have h2 : (n : Int) < (2 : Int) ^ 31 := by exact_mod_cast h
  rw [if_pos ⟨by simpa using h1, by simpa using h2⟩]
  simp

theorem stoull_columnText_literal (n : Nat) (h : n < 2 ^ 63) :
    stoull (columnText (sqlIntegerLiteral n)) = .returns n := by
  have hneg : ¬ ((n : Int) < 0) := by omega
  simp only [sqlIntegerLiteral, h, if_true, columnText, fmtInt, hneg, if_false, Int.natAbs_ofNat]
  exact stoull_fmtNat n (by omega)

theorem stoi_columnText_integer (d : Int) (h0 : 0 ≤ d) (h1 : d < 2 ^ 31) :
    stoi (columnText (.integer d)) = .returns d := by
  have hneg : ¬ (d < 0) := by omega
  simp only [columnText, fmtInt, hneg, if_false]
  have hlt : d.natAbs < 2 ^ 31 := by omega
  rw [stoi_fmtNat _ hlt]
  congr 1
  omega

end Db

/-! ## Claims -/

namespace Db

/-- C1: for every non-empty string `s`, `isHashValid s` is true exactly when every
character of `s` is one of `0-9` or `a-f`; a string containing an uppercase letter
`A-F`, or any other character outside that set, is rejected. -/
theorem isHashValid_nonempty_iff (s : String) (hne : s ≠ "") :
    (isHashValid s = true ↔ ∀ c ∈ s.toList, c ∈ "0123456789abcdef".toList) ∧
    ((∃ c ∈ s.toList, 'A' ≤ c ∧ c ≤ 'F') → isHashValid s = false) ∧
    ((∃ c ∈ s.toList, c ∉ "0123456789abcdef".toList) → isHashValid s = false) := by
  have hiff := isHashValid_iff s
  refine ⟨hiff, ?_, ?_⟩
  · rintro ⟨c, hc, hA, hF⟩
    rw [isHashValid_false_iff]
    intro hall
    have hmem := hall c hc
    have hbad : ∀ d ∈ hexChars, ¬ ('A' ≤ d ∧ d ≤ 'F') := by decide
    exact hbad c hmem ⟨hA, hF⟩
  · rintro ⟨c, hc, hnot⟩
    rw [isHashValid_false_iff]
    intro hall
    exact hnot (hall c hc)

/-- Witness for C1 at the string `0af9`. -/
theorem isHashValid_nonempty_iff_witness :
    "0af9" ≠ "" ∧
    ((isHashValid "0af9" = true ↔ ∀ c ∈ "0af9".toList, c ∈ "0123456789abcdef".toList) ∧
    ((∃ c ∈ "0af9".toList, 'A' ≤ c ∧ c ≤ 'F') → isHashValid "0af9" = false) ∧
    ((∃ c ∈ "0af9".toList, c ∉ "0123456789abcdef".toList) → isHashValid "0af9" = false)) :=
  ⟨by decide, isHashValid_nonempty_iff "0af9" (by decide)⟩

/-- C2 as stated fails: at the empty string `isHashValid` returns true, whereas
`s.length > 0 && s.all (c in "0123456789abcdef")` is false. -/
theorem isHashValid_empty_string_accepted :
    isHashValid "" = true ∧
    isHashValid "" ≠
      (decide ("".length > 0) && "".toList.all (fun c => decide (c ∈ "0123456789abcdef".toList))) := by
  decide

/-- C2 amended: `isHashValid` has no length requirement.  For every string `s`,
`isHashValid s` equals "every character of `s` is in `0123456789abcdef`", which is
the specification's formula with the empty string accepted instead of rejected. -/
theorem isHashValid_eq_all_hex (s : String) :
    isHashValid s = s.toList.all (fun c => decide (c ∈ "0123456789abcdef".toList)) ∧
    isHashValid s =
      (decide (s.length = 0) ||
        (decide (s.length > 0) &&
          s.toList.all (fun c => decide (c ∈ "0123456789abcdef".toList)))) := by
  have h1 : isHashValid s = s.toList.all (fun c => decide (c ∈ "0123456789abcdef".toList)) := by
    unfold isHashValid
    congr 1
    funext c
    have := hexChar_iff c
    rw [Bool.eq_iff_iff, this]
    simp [hexChars]
  refine ⟨h1, ?_⟩
  rw [h1]
  by_cases hlen : s.length = 0
  · have hnil : s.data = [] := List.length_eq_zero.mp hlen
    simp [hlen, hnil]
  · have hpos : s.length > 0 := Nat.pos_of_ne_zero hlen
    simp [hlen, hpos]

end Db

namespace Db

/-! ### Table lemmas -/

theorem any_nonce_false_of_fresh (table : List ChallengeRow) (nonce : String)
    (hfresh : ∀ r ∈ table, r.nonce ≠ nonce) :
    table.any (fun r => r.nonce == nonce) = false := by
  rw [List.any_eq_false]
  intro r hr
  simpa using hfresh r hr

theorem any_token_false_of_fresh (table : List TokenRow) (token : String)
    (hfresh : ∀ r ∈ table, r.token ≠ token) :
    table.any (fun r => r.token == token) = false := by
  rw [List.any_eq_false]
  intro r hr
  simpa using hfresh r hr

theorem filter_nonce_nil_of_fresh (table : List ChallengeRow) (nonce : String)
    (hfresh : ∀ r ∈ table, r.nonce ≠ nonce) :
    table.filter (fun r => r.nonce == nonce) = [] := by
  rw [List.filter_eq_nil_iff]
  intro r hr
  simpa using hfresh r hr

theorem filter_token_nil_of_fresh (table : List TokenRow) (token : String)
    (hfresh : ∀ r ∈ table, r.token ≠ token) :
    table.filter (fun r => r.token == token) = [] := by
  rw [List.filter_eq_nil_iff]
  intro r hr
  simpa using hfresh r hr

theorem selectChallenges_insert_fresh (row : ChallengeRow) (table : List ChallengeRow)
    (hfresh : ∀ r ∈ table, r.nonce ≠ row.nonce) :
    selectChallenges row.nonce (insertChallengeRow row table) = row.columns := by
  unfold selectChallenges insertChallengeRow
  rw [any_nonce_false_of_fresh table row.nonce hfresh]
  simp [List.filter_append, filter_nonce_nil_of_fresh table row.nonce hfresh, List.filter]

theorem selectTokens_insert_fresh (row : TokenRow) (table : List TokenRow)
    (hfresh : ∀ r ∈ table, r.token ≠ row.token) :
    selectTokens row.token (insertTokenRow row table) = row.columns := by
  unfold selectTokens insertTokenRow
  rw [any_token_false_of_fresh table row.token hfresh]
  simp [List.filter_append, filter_token_nil_of_fresh table row.token hfresh, List.filter]

/-! ### Reading back what was inserted -/

theorem getChallenge_after_insert (db : CDatabase) (e : SDatabaseChallengeEntry)
    (hfresh : ∀ r ∈ db.challenges, r.nonce ≠ e.nonce)
    (hnonce : IsLowerHex e.nonce) (hfp : IsLowerHex e.fingerprint)
    (hd0 : 0 ≤ e.difficulty) (hd1 : e.difficulty < 2 ^ 31) (hepoch : e.epoch < 2 ^ 63) :
    getChallenge e.nonce (addChallenge e db) = (addChallenge e db, .returns (some e)) := by
  have hv1 : isHashValid e.nonce = true := (isHashValid_iff _).mpr hnonce
  have hv2 : isHashValid e.fingerprint = true := (isHashValid_iff _).mpr hfp
  have hsel := selectChallenges_insert_fresh
    { nonce := e.nonce, fingerprint := e.fingerprint, difficulty := .integer e.difficulty,
      epoch := sqlIntegerLiteral e.epoch } db.challenges hfresh
  simp only [getChallenge, addChallenge, hv1, hv2, Bool.not_true, Bool.false_eq_true, if_false]
  simp only [hsel, ChallengeRow.columns, List.length_cons, List.length_nil, List.getD_cons_succ,
    List.getD_cons_zero, stoi_columnText_integer e.difficulty hd0 hd1,
    stoull_columnText_literal e.epoch hepoch]
  simp

/-- The cut-off printed into the sweep's statement is an ordinary integer literal
when the wall clock is at least one lifetime past the epoch and is a `time_t`. -/
theorem cutoff_literal (lifetime : Nat) (wallNow : Int) (h0 : (lifetime : Int) ≤ wallNow)
    (h1 : wallNow < 2 ^ 63) :
    sqlIntegerLiteral (toUInt64 (wallNow - (lifetime : Int))) =
      .integer (wallNow - (lifetime : Int)) := by
  have hnn : 0 ≤ wallNow - (lifetime : Int) := by omega
  have hlt : wallNow - (lifetime : Int) < 2 ^ 64 := by omega
  have hmod : (wallNow - (lifetime : Int)) % (2 : Int) ^ 64 = wallNow - (lifetime : Int) :=
    Int.emod_eq_of_lt hnn hlt
  unfold sqlIntegerLiteral toUInt64
  rw [hmod]
  have hsmall : (wallNow - (lifetime : Int)).toNat < 2 ^ 63 := by omega
  rw [if_pos hsmall, Int.toNat_of_nonneg hnn]

/-- Against an integer cut-off `now - lifetime`, the engine's `epoch < cutoff` is
the specification's `now - epoch > lifetime`. -/
theorem sqlLt_cutoff_eq_expired (lifetime : Nat) (wallNow : Int) (v : SqlValue) :
    sqlLt v (.integer (wallNow - (lifetime : Int))) = expired lifetime wallNow v := by
  cases v with
  | integer e =>
    simp only [sqlLt, expired]
    rw [decide_eq_decide]; omega
  | real d =>
    simp only [sqlLt, expired]
    rw [decide_eq_decide]; omega
  | text s => rfl

theorem selectTokens_delete_insert_fresh (row : TokenRow) (table : List TokenRow)
    (cutoff : SqlValue) (hfresh : ∀ r ∈ table, r.token ≠ row.token)
    (hkeep : sqlLt row.epoch cutoff = false) :
    selectTokens row.token (deleteTokensBefore cutoff (insertTokenRow row table)) =
      row.columns := by
  unfold selectTokens deleteTokensBefore insertTokenRow
  rw [any_token_false_of_fresh table row.token hfresh]
  have hnil : List.filter (fun r => r.token == row.token)
      (List.filter (fun r => !(sqlLt r.epoch cutoff)) table) = [] := by
    rw [List.filter_eq_nil_iff]
    intro r hr
    have hmem : r ∈ table := (List.mem_filter.mp hr).1
    simpa using hfresh r hmem
  simp [List.filter_append, hnil, List.filter, hkeep]

theorem getToken_after_insert (steadyAtCheck steadyAtSweep wallNow : Int) (db : CDatabase)
    (e : SDatabaseTokenEntry) (hfresh : ∀ r ∈ db.tokens, r.token ≠ e.token)
    (htoken : IsLowerHex e.token) (hfp : IsLowerHex e.fingerprint) (hepoch : e.epoch < 2 ^ 63)
    (hsweep : shouldCleanupDb steadyAtCheck (addToken e db) = false ∨
      ((DB_TOKEN_LIFE_LENGTH_S : Int) ≤ wallNow ∧ wallNow < 2 ^ 63 ∧
        wallNow - (e.epoch : Int) ≤ (DB_TOKEN_LIFE_LENGTH_S : Int))) :
    (getToken steadyAtCheck steadyAtSweep wallNow e.token (addToken e db)).2 =
      .returns (some e) := by
  have hv1 : isHashValid e.token = true := (isHashValid_iff _).mpr htoken
  have hv2 : isHashValid e.fingerprint = true := (isHashValid_iff _).mpr hfp
  have hread := stoull_columnText_literal e.epoch hepoch
  have hadd : addToken e db =
      { db with
        tokens := insertTokenRow
          ({ token := e.token, fingerprint := e.fingerprint,
             epoch := sqlIntegerLiteral e.epoch } : TokenRow)
          db.tokens } := by
    simp [addToken, hv1, hv2]
  by_cases hs : shouldCleanupDb steadyAtCheck (addToken e db) = true
  · have hcond : (DB_TOKEN_LIFE_LENGTH_S : Int) ≤ wallNow ∧ wallNow < 2 ^ 63 ∧
        wallNow - (e.epoch : Int) ≤ (DB_TOKEN_LIFE_LENGTH_S : Int) := by
      rcases hsweep with h | h
      · rw [hs] at h; exact absurd h (by decide)
      · exact h
    obtain ⟨hw0, hw1, hfreshness⟩ := hcond
    have hkeep : sqlLt (sqlIntegerLiteral e.epoch)
        (sqlIntegerLiteral (toUInt64 (wallNow - (DB_TOKEN_LIFE_LENGTH_S : Int)))) = false := by
      rw [cutoff_literal _ _ hw0 hw1, sqlLt_cutoff_eq_expired]
      simp only [sqlIntegerLiteral, hepoch, if_true, expired, decide_eq_false_iff_not]
      omega
    have hsel := selectTokens_delete_insert_fresh
      { token := e.token, fingerprint := e.fingerprint, epoch := sqlIntegerLiteral e.epoch }
      db.tokens _ hfresh hkeep
    simp only [getToken, hv1, hs, Bool.not_true, Bool.false_eq_true, if_false, if_true]
    rw [hadd]
    simp only [cleanupDb, hsel, TokenRow.columns, List.length_cons, List.length_nil,
      List.getD_cons_succ, List.getD_cons_zero, hread]
    simp
  · have hsel := selectTokens_insert_fresh
      { token := e.token, fingerprint := e.fingerprint, epoch := sqlIntegerLiteral e.epoch }
      db.tokens hfresh
    simp only [getToken, hv1, hs, Bool.not_true, Bool.false_eq_true, if_false]
    rw [hadd]
    simp only [hsel, TokenRow.columns, List.length_cons, List.length_nil,
      List.getD_cons_succ, List.getD_cons_zero, hread]
    simp

end Db

namespace Db

/-! ### Second insert under a key that is already present -/

theorem insertChallengeRow_of_present (row : ChallengeRow) (table : List ChallengeRow)
    (h : table.any (fun r => r.nonce == row.nonce) = true) :
    insertChallengeRow row table = table := by
  unfold insertChallengeRow
  rw [if_pos h]

theorem insertTokenRow_of_present (row : TokenRow) (table : List TokenRow)
    (h : table.any (fun r => r.token == row.token) = true) :
    insertTokenRow row table = table := by
  unfold insertTokenRow
  rw [if_pos h]

theorem insertChallengeRow_twice (row1 row2 : ChallengeRow) (table : List ChallengeRow)
    (hkey : row1.nonce = row2.nonce) :
    insertChallengeRow row2 (insertChallengeRow row1 table) = insertChallengeRow row1 table := by
  apply insertChallengeRow_of_present
  unfold insertChallengeRow
  by_cases h : table.any (fun r => r.nonce == row1.nonce) = true
  · rw [if_pos h, ← hkey]; exact h
  · rw [if_neg h]; simp [hkey]

theorem insertTokenRow_twice (row1 row2 : TokenRow) (table : List TokenRow)
    (hkey : row1.token = row2.token) :
    insertTokenRow row2 (insertTokenRow row1 table) = insertTokenRow row1 table := by
  apply insertTokenRow_of_present
  unfold insertTokenRow
  by_cases h : table.any (fun r => r.token == row1.token) = true
  · rw [if_pos h, ← hkey]; exact h
  · rw [if_neg h]; simp [hkey]

theorem addChallenge_of_invalid (db : CDatabase) (e : SDatabaseChallengeEntry)
    (h : isHashValid e.nonce = false ∨ isHashValid e.fingerprint = false) :
    addChallenge e db = db := by
  unfold addChallenge
  rcases h with h | h
  · simp [h]
  · simp [h]

theorem addToken_of_invalid (db : CDatabase) (e : SDatabaseTokenEntry)
    (h : isHashValid e.token = false ∨ isHashValid e.fingerprint = false) :
    addToken e db = db := by
  unfold addToken
  rcases h with h | h
  · simp [h]
  · simp [h]

theorem addChallenge_twice (db : CDatabase) (e1 e2 : SDatabaseChallengeEntry)
    (hkey : e1.nonce = e2.nonce) (hnonce : IsLowerHex e1.nonce)
    (hfp : IsLowerHex e1.fingerprint) :
    addChallenge e2 (addChallenge e1 db) = addChallenge e1 db := by
  have hv1 : isHashValid e1.nonce = true := (isHashValid_iff _).mpr hnonce
  have hv2 : isHashValid e1.fingerprint = true := (isHashValid_iff _).mpr hfp
  have hv3 : isHashValid e2.nonce = true := by rw [← hkey]; exact hv1
  by_cases hv4 : isHashValid e2.fingerprint = true
  · simp only [addChallenge, hv1, hv2, hv3, hv4, Bool.not_true, Bool.false_eq_true, if_false]
    rw [insertChallengeRow_twice _ _ _ hkey]
  · exact addChallenge_of_invalid _ _ (Or.inr (by simpa using hv4))

theorem addToken_twice (db : CDatabase) (e1 e2 : SDatabaseTokenEntry)
    (hkey : e1.token = e2.token) (htoken : IsLowerHex e1.token)
    (hfp : IsLowerHex e1.fingerprint) :
    addToken e2 (addToken e1 db) = addToken e1 db := by
  have hv1 : isHashValid e1.token = true := (isHashValid_iff _).mpr htoken
  have hv2 : isHashValid e1.fingerprint = true := (isHashValid_iff _).mpr hfp
  have hv3 : isHashValid e2.token = true := by rw [← hkey]; exact hv1
  by_cases hv4 : isHashValid e2.fingerprint = true
  · simp only [addToken, hv1, hv2, hv3, hv4, Bool.not_true, Bool.false_eq_true, if_false]
    rw [insertTokenRow_twice _ _ _ hkey]
  · exact addToken_of_invalid _ _ (Or.inr (by simpa using hv4))

/-! ### Round trips (C3, C4) -/

/-- C3 as stated fails: with epoch `2^63` (an unsigned 64-bit value) the literal
leaves the engine's integer range, the cell reads back as `9.22337203685478e+18`
and `std::stoull` returns 9. -/
theorem challenge_round_trip_fails_at_two_pow_63 :
    IsLowerHex farFutureChallenge.nonce ∧ IsLowerHex farFutureChallenge.fingerprint ∧
    0 ≤ farFutureChallenge.difficulty ∧ farFutureChallenge.epoch < 2 ^ 64 ∧
    (∀ r ∈ emptyStore.challenges, r.nonce ≠ farFutureChallenge.nonce) ∧
    (getChallenge farFutureChallenge.nonce (addChallenge farFutureChallenge emptyStore)).2 =
      .returns (some { farFutureChallenge with epoch := 9 }) ∧
    (getChallenge farFutureChallenge.nonce (addChallenge farFutureChallenge emptyStore)).2 ≠
      .returns (some farFutureChallenge) := by
  decide

/-- C3 amended: for every store state that holds no challenge with nonce
`e.nonce`, and every entry `e` whose nonce and fingerprint are lowercase hex,
whose difficulty is a non-negative `int` and whose epoch is below `2^63`,
`addChallenge e` followed by `getChallenge e.nonce` returns exactly `e` and leaves
the store as `addChallenge` made it. -/
theorem getChallenge_addChallenge (db : CDatabase) (e : SDatabaseChallengeEntry)
    (hfresh : ∀ r ∈ db.challenges, r.nonce ≠ e.nonce)
    (hnonce : IsLowerHex e.nonce) (hfp : IsLowerHex e.fingerprint)
    (hd0 : 0 ≤ e.difficulty) (hd1 : e.difficulty < 2 ^ 31) (hepoch : e.epoch < 2 ^ 63) :
    getChallenge e.nonce (addChallenge e db) = (addChallenge e db, .returns (some e)) :=
  getChallenge_after_insert db e hfresh hnonce hfp hd0 hd1 hepoch

/-- Witness for the amended C3 at `sampleChallenge` and the empty store. -/
theorem getChallenge_addChallenge_witness :
    (∀ r ∈ emptyStore.challenges, r.nonce ≠ sampleChallenge.nonce) ∧
    IsLowerHex sampleChallenge.nonce ∧ IsLowerHex sampleChallenge.fingerprint ∧
    0 ≤ sampleChallenge.difficulty ∧ sampleChallenge.difficulty < 2 ^ 31 ∧
    sampleChallenge.epoch < 2 ^ 63 ∧
    getChallenge sampleChallenge.nonce (addChallenge sampleChallenge emptyStore) =
      (addChallenge sampleChallenge emptyStore, .returns (some sampleChallenge)) :=
  ⟨by decide, by decide, by decide, by decide, by decide, by decide,
    getChallenge_addChallenge emptyStore sampleChallenge (by decide) (by decide) (by decide)
      (by decide) (by decide) (by decide)⟩

/-- C4 as stated fails: the store has never been swept, the steady clock reads
700000 ms, the wall clock 10000 s.  `getToken` sweeps before it looks up, the
token granted at second 99 is older than an hour and is deleted, and the call
returns nothing. -/
theorem token_round_trip_fails_when_sweep_is_due :
    IsLowerHex sampleToken.token ∧ IsLowerHex sampleToken.fingerprint ∧
    (∀ r ∈ emptyStore.tokens, r.token ≠ sampleToken.token) ∧
    (getToken 700000 700000 10000 sampleToken.token (addToken sampleToken emptyStore)).2 =
      .returns none ∧
    (getToken 700000 700000 10000 sampleToken.token (addToken sampleToken emptyStore)).2 ≠
      .returns (some sampleToken) := by
  decide

/-- C4 amended: for every store state that holds no token with key `e.token`,
every entry `e` whose token and fingerprint are lowercase hex and whose epoch is
below `2^63`, and all clock readings such that either no sweep is due at the call
or the wall clock `now` is a `time_t` of at least one token lifetime with
`now - e.epoch ≤ 3600`, `addToken e` followed by `getToken e.token` returns
exactly `e`. -/
theorem getToken_addToken (steadyAtCheck steadyAtSweep wallNow : Int) (db : CDatabase)
    (e : SDatabaseTokenEntry) (hfresh : ∀ r ∈ db.tokens, r.token ≠ e.token)
    (htoken : IsLowerHex e.token) (hfp : IsLowerHex e.fingerprint) (hepoch : e.epoch < 2 ^ 63)
    (hsweep : shouldCleanupDb steadyAtCheck (addToken e db) = false ∨
      ((3600 : Int) ≤ wallNow ∧ wallNow < 2 ^ 63 ∧ wallNow - (e.epoch : Int) ≤ 3600)) :
    (getToken steadyAtCheck steadyAtSweep wallNow e.token (addToken e db)).2 =
      .returns (some e) :=
  getToken_after_insert steadyAtCheck steadyAtSweep wallNow db e hfresh htoken hfp hepoch hsweep

/-- Witness for the amended C4: a sweep is due and runs, the token is 3600 s old
and survives it. -/
theorem getToken_addToken_witness :
    (∀ r ∈ emptyStore.tokens, r.token ≠ sampleToken.token) ∧
    IsLowerHex sampleToken.token ∧ IsLowerHex sampleToken.fingerprint ∧
    sampleToken.epoch < 2 ^ 63 ∧
    shouldCleanupDb 700000 (addToken sampleToken emptyStore) = true ∧
    ((3600 : Int) ≤ 3699 ∧ (3699 : Int) < 2 ^ 63 ∧ (3699 : Int) - (sampleToken.epoch : Int) ≤ 3600) ∧
    (getToken 700000 700001 3699 sampleToken.token (addToken sampleToken emptyStore)).2 =
      .returns (some sampleToken) :=
  ⟨by decide, by decide, by decide, by decide, by decide, by decide,
    getToken_addToken 700000 700001 3699 emptyStore sampleToken (by decide) (by decide)
      (by decide) (by decide) (Or.inr (by decide))⟩

end Db

namespace Db

/-! ### Invalid identifiers (C5) -/

/-- C5: for every store state and every key that is not lowercase hex (it holds a
character outside `0-9a-f`), `addChallenge` and `addToken` with that key as nonce,
token or fingerprint, and `getChallenge`, `getToken`, `dropChallenge`, `dropToken`
with that key, leave both tables and `m_lastDbCleanup` unchanged; `getToken` runs
no sweep whatever the clocks read, and both reads return nothing. -/
theorem invalid_identifier_is_noop (db : CDatabase) (key : String) (hkey : ¬ IsLowerHex key)
    (ec : SDatabaseChallengeEntry) (et : SDatabaseTokenEntry)
    (steadyAtCheck steadyAtSweep wallNow : Int) :
    (ec.nonce = key ∨ ec.fingerprint = key → addChallenge ec db = db) ∧
    (et.token = key ∨ et.fingerprint = key → addToken et db = db) ∧
    getChallenge key db = (db, .returns none) ∧
    getToken steadyAtCheck steadyAtSweep wallNow key db = (db, .returns none) ∧
    dropChallenge key db = db ∧
    dropToken key db = db := by
  have hv : isHashValid key = false := (isHashValid_false_iff key).mpr hkey
  refine ⟨?_, ?_, ?_, ?_, ?_, ?_⟩
  · intro h
    apply addChallenge_of_invalid
    rcases h with h | h
    · left; rw [h]; exact hv
    · right; rw [h]; exact hv
  · intro h
    apply addToken_of_invalid
    rcases h with h | h
    · left; rw [h]; exact hv
    · right; rw [h]; exact hv
  · simp [getChallenge, hv]
  · simp [getToken, hv]
  · simp [dropChallenge, hv]
  · simp [dropToken, hv]

/-- Witness for C5: the key `aG` on a store that holds a challenge and a token and
is due for a sweep. -/
theorem invalid_identifier_is_noop_witness :
    ¬ IsLowerHex "aG" ∧
    shouldCleanupDb 700000 (addToken sampleToken (addChallenge sampleChallenge emptyStore)) = true ∧
    addChallenge { sampleChallenge with fingerprint := "aG" }
        (addToken sampleToken (addChallenge sampleChallenge emptyStore)) =
      addToken sampleToken (addChallenge sampleChallenge emptyStore) ∧
    addToken { sampleToken with token := "aG" }
        (addToken sampleToken (addChallenge sampleChallenge emptyStore)) =
      addToken sampleToken (addChallenge sampleChallenge emptyStore) ∧
    getChallenge "aG" (addToken sampleToken (addChallenge sampleChallenge emptyStore)) =
      (addToken sampleToken (addChallenge sampleChallenge emptyStore), .returns none) ∧
    getToken 700000 700000 10000 "aG"
        (addToken sampleToken (addChallenge sampleChallenge emptyStore)) =
      (addToken sampleToken (addChallenge sampleChallenge emptyStore), .returns none) ∧
    dropChallenge "aG" (addToken sampleToken (addChallenge sampleChallenge emptyStore)) =
      addToken sampleToken (addChallenge sampleChallenge emptyStore) ∧
    dropToken "aG" (addToken sampleToken (addChallenge sampleChallenge emptyStore)) =
      addToken sampleToken (addChallenge sampleChallenge emptyStore) :=
  have h := invalid_identifier_is_noop
    (addToken sampleToken (addChallenge sampleChallenge emptyStore)) "aG" (by decide)
    { sampleChallenge with fingerprint := "aG" } { sampleToken with token := "aG" }
    700000 700000 10000
  ⟨by decide, by decide, h.1 (Or.inr rfl), h.2.1 (Or.inl rfl), h.2.2.1, h.2.2.2.1,
    h.2.2.2.2.1, h.2.2.2.2.2⟩

/-! ### Duplicate insert (C6) -/

/-- C6 as stated fails in both halves.  Challenges: the first entry has epoch
`2^63`, the second insert is refused, and `getChallenge` returns epoch 9, not the
first entry.  Tokens: the second insert is refused, but the `getToken` that
follows runs a due sweep, which deletes the hour-old first entry. -/
theorem duplicate_insert_read_back_fails :
    IsLowerHex farFutureChallenge.nonce ∧ IsLowerHex farFutureChallenge.fingerprint ∧
    IsLowerHex rivalChallenge.nonce ∧ IsLowerHex rivalChallenge.fingerprint ∧
    farFutureChallenge.nonce = rivalChallenge.nonce ∧
    farFutureChallenge.fingerprint ≠ rivalChallenge.fingerprint ∧
    (∀ r ∈ emptyStore.challenges, r.nonce ≠ farFutureChallenge.nonce) ∧
    (getChallenge farFutureChallenge.nonce
        (addChallenge rivalChallenge (addChallenge farFutureChallenge emptyStore))).2 ≠
      .returns (some farFutureChallenge) ∧
    IsLowerHex sampleToken.token ∧ IsLowerHex sampleToken.fingerprint ∧
    IsLowerHex rivalToken.token ∧ IsLowerHex rivalToken.fingerprint ∧
    sampleToken.token = rivalToken.token ∧ sampleToken.fingerprint ≠ rivalToken.fingerprint ∧
    (∀ r ∈ emptyStore.tokens, r.token ≠ sampleToken.token) ∧
    (getToken 700000 700000 10000 sampleToken.token
        (addToken rivalToken (addToken sampleToken emptyStore))).2 ≠
      .returns (some sampleToken) := by
  decide

/-- C6 amended: for every store state and every two entries `e1`, `e2` with the
same nonce, `e1` having a lowercase-hex nonce and fingerprint, after
`addChallenge e1; addChallenge e2` the store is the same as after `addChallenge e1`
alone; when the nonce was not stored before, the difficulty is a non-negative `int`
and `e1.epoch < 2^63`, `getChallenge e1.nonce` returns `e1`.  The same holds for
`addToken` on a repeated token key, where `getToken` returns the first entry when
its epoch is below `2^63` and either no sweep is due at the call or the wall clock
`now` is a `time_t` of at least 3600 with `now - epoch ≤ 3600`. -/
theorem duplicate_insert_keeps_first (db : CDatabase) (e1 e2 : SDatabaseChallengeEntry)
    (t1 t2 : SDatabaseTokenEntry) (steadyAtCheck steadyAtSweep wallNow : Int)
    (hnonce : e1.nonce = e2.nonce) (he1n : IsLowerHex e1.nonce)
    (he1f : IsLowerHex e1.fingerprint)
    (htoken : t1.token = t2.token) (ht1n : IsLowerHex t1.token)
    (ht1f : IsLowerHex t1.fingerprint) :
    addChallenge e2 (addChallenge e1 db) = addChallenge e1 db ∧
    ((∀ r ∈ db.challenges, r.nonce ≠ e1.nonce) → 0 ≤ e1.difficulty → e1.difficulty < 2 ^ 31 →
      e1.epoch < 2 ^ 63 →
      getChallenge e1.nonce (addChallenge e2 (addChallenge e1 db)) =
        (addChallenge e1 db, .returns (some e1))) ∧
    addToken t2 (addToken t1 db) = addToken t1 db ∧
    ((∀ r ∈ db.tokens, r.token ≠ t1.token) → t1.epoch < 2 ^ 63 →
      (shouldCleanupDb steadyAtCheck (addToken t1 db) = false ∨
        ((3600 : Int) ≤ wallNow ∧ wallNow < 2 ^ 63 ∧ wallNow - (t1.epoch : Int) ≤ 3600)) →
      (getToken steadyAtCheck steadyAtSweep wallNow t1.token
          (addToken t2 (addToken t1 db))).2 = .returns (some t1)) := by
  have hc := addChallenge_twice db e1 e2 hnonce he1n he1f
  have ht := addToken_twice db t1 t2 htoken ht1n ht1f
  refine ⟨hc, ?_, ht, ?_⟩
  · intro hfresh hd0 hd1 hepoch
    rw [hc]
    exact getChallenge_after_insert db e1 hfresh he1n he1f hd0 hd1 hepoch
  · intro hfresh hepoch hsweep
    rw [ht]
    exact getToken_after_insert steadyAtCheck steadyAtSweep wallNow db t1 hfresh ht1n ht1f
      hepoch hsweep

/-- Witness for the amended C6: `sampleChallenge` then `rivalChallenge`,
`sampleToken` then `rivalToken`, on the empty store, read back while no sweep is
due. -/
theorem duplicate_insert_keeps_first_witness :
    sampleChallenge.nonce = rivalChallenge.nonce ∧ IsLowerHex sampleChallenge.nonce ∧
    IsLowerHex sampleChallenge.fingerprint ∧ sampleToken.token = rivalToken.token ∧
    IsLowerHex sampleToken.token ∧ IsLowerHex sampleToken.fingerprint ∧
    addChallenge rivalChallenge (addChallenge sampleChallenge emptyStore) =
      addChallenge sampleChallenge emptyStore ∧
    getChallenge sampleChallenge.nonce
        (addChallenge rivalChallenge (addChallenge sampleChallenge emptyStore)) =
      (addChallenge sampleChallenge emptyStore, .returns (some sampleChallenge)) ∧
    addToken rivalToken (addToken sampleToken emptyStore) = addToken sampleToken emptyStore ∧
    shouldCleanupDb 1000 (addToken sampleToken emptyStore) = false ∧
    (getToken 1000 1000 10000 sampleToken.token
        (addToken rivalToken (addToken sampleToken emptyStore))).2 =
      .returns (some sampleToken) :=
  have h := duplicate_insert_keeps_first emptyStore sampleChallenge rivalChallenge sampleToken
    rivalToken 1000 1000 10000 (by decide) (by decide) (by decide) (by decide) (by decide)
    (by decide)
  ⟨by decide, by decide, by decide, by decide, by decide, by decide, h.1,
    h.2.1 (by decide) (by decide) (by decide) (by decide), h.2.2.1, by decide,
    h.2.2.2 (by decide) (by decide) (Or.inl (by decide))⟩

end Db

namespace Db

/-! ### Drops (C7, C8, C9) -/

theorem selectTokens_deleteTokenRows_same (token : String) (table : List TokenRow) :
    selectTokens token (deleteTokenRows token table) = [] := by
  unfold selectTokens deleteTokenRows
  rw [List.filter_filter]
  have hnil : List.filter (fun r : TokenRow => r.token == token && !(r.token == token)) table = [] := by
    rw [List.filter_eq_nil_iff]
    intro r _
    simp
  rw [hnil]
  rfl

theorem selectTokens_deleteTokenRows_other (token other : String) (hne : other ≠ token)
    (table : List TokenRow) :
    selectTokens other (deleteTokenRows token table) = selectTokens other table := by
  unfold selectTokens deleteTokenRows
  rw [List.filter_filter]
  congr 1
  apply List.filter_congr
  intro r _
  by_cases h : r.token = other
  · have : r.token ≠ token := by rw [h]; exact hne
    simp [h, hne]
  · simp [h]

theorem deleteTokensBefore_deleteTokenRows (cutoff : SqlValue) (token : String)
    (table : List TokenRow) :
    deleteTokensBefore cutoff (deleteTokenRows token table) =
      deleteTokenRows token (deleteTokensBefore cutoff table) := by
  unfold deleteTokensBefore deleteTokenRows
  rw [List.filter_filter, List.filter_filter]
  apply List.filter_congr
  intro r _
  exact Bool.and_comm _ _

/-- The outcome of `getToken` is determined by what its `SELECT` finds. -/
theorem getToken_snd_congr (steadyAtCheck steadyAtSweep wallNow : Int) (token : String)
    (db db2 : CDatabase) (hlast : db2.m_lastDbCleanup = db.m_lastDbCleanup)
    (hsame : ∀ cutoff, selectTokens token (deleteTokensBefore cutoff db2.tokens) =
      selectTokens token (deleteTokensBefore cutoff db.tokens))
    (hplain : selectTokens token db2.tokens = selectTokens token db.tokens) :
    (getToken steadyAtCheck steadyAtSweep wallNow token db2).2 =
      (getToken steadyAtCheck steadyAtSweep wallNow token db).2 := by
  have hshould : shouldCleanupDb steadyAtCheck db2 = shouldCleanupDb steadyAtCheck db := by
    unfold shouldCleanupDb; rw [hlast]
  unfold getToken
  by_cases hv : isHashValid token = true
  · by_cases hs : shouldCleanupDb steadyAtCheck db = true
    · simp only [hv, hshould, hs, Bool.not_true, Bool.false_eq_true, if_false, if_true, cleanupDb,
        hsame]
      split <;> [rfl; (split <;> rfl)]
    · simp only [hv, hshould, hs, Bool.not_true, Bool.false_eq_true, if_false, hplain]
      split <;> [rfl; (split <;> rfl)]
  · simp [hv]

/-- C7, evaluated on the code: `dropChallenge` sends its `DELETE` to the tokens
table, so for every store and every nonce the challenges table is unchanged; on
the store holding `sampleChallenge`, `dropChallenge "ab"` leaves its row in place
and `getChallenge "ab"` still returns the entry. -/
theorem dropChallenge_leaves_challenge_row :
    (∀ (db : CDatabase) (nonce : String), (dropChallenge nonce db).challenges = db.challenges) ∧
    IsLowerHex "ab" ∧
    (dropChallenge "ab" (addChallenge sampleChallenge emptyStore)).challenges =
      [{ nonce := "ab", fingerprint := "cd", difficulty := .integer 4, epoch := .integer 1000 }] ∧
    (getChallenge "ab" (dropChallenge "ab" (addChallenge sampleChallenge emptyStore))).2 =
      .returns (some sampleChallenge) := by
  refine ⟨?_, by decide, by decide, by decide⟩
  intro db nonce
  unfold dropChallenge
  split <;> rfl

/-- C8, evaluated on the code: on the store holding `sampleToken` under the key
`ab`, `dropChallenge "ab"` empties the tokens table; `getToken "ab"` (no sweep
due) returned the token before the call and returns nothing after it. -/
theorem dropChallenge_deletes_token_row :
    (addToken sampleToken emptyStore).tokens =
      [{ token := "ab", fingerprint := "cd", epoch := .integer 99 }] ∧
    (dropChallenge "ab" (addToken sampleToken emptyStore)).tokens = [] ∧
    shouldCleanupDb 1000 (addToken sampleToken emptyStore) = false ∧
    (getToken 1000 1000 100 "ab" (addToken sampleToken emptyStore)).2 =
      .returns (some sampleToken) ∧
    (getToken 1000 1000 100 "ab" (dropChallenge "ab" (addToken sampleToken emptyStore))).2 =
      .returns none := by
  decide

/-- C9: for every store state and every lowercase-hex token `t`, after
`dropToken t` the tokens table is the previous one with the rows keyed `t`
removed (unchanged if `t` was absent), the challenges table and
`m_lastDbCleanup` are untouched, `getToken t` returns nothing whatever the clocks
read, and `getToken` on any other key returns what it would have returned without
the drop. -/
theorem dropToken_deletes_exactly_the_row (db : CDatabase) (t : String) (ht : IsLowerHex t)
    (steadyAtCheck steadyAtSweep wallNow : Int) :
    (dropToken t db).tokens = db.tokens.filter (fun r => decide (r.token ≠ t)) ∧
    (dropToken t db).challenges = db.challenges ∧
    (dropToken t db).m_lastDbCleanup = db.m_lastDbCleanup ∧
    ((∀ r ∈ db.tokens, r.token ≠ t) → dropToken t db = db) ∧
    (getToken steadyAtCheck steadyAtSweep wallNow t (dropToken t db)).2 = .returns none ∧
    (∀ other : String, other ≠ t →
      (getToken steadyAtCheck steadyAtSweep wallNow other (dropToken t db)).2 =
        (getToken steadyAtCheck steadyAtSweep wallNow other db).2) := by
  have hv : isHashValid t = true := (isHashValid_iff t).mpr ht
  have hdrop : dropToken t db = { db with tokens := deleteTokenRows t db.tokens } := by
    simp [dropToken, hv]
  have htok : (dropToken t db).tokens = db.tokens.filter (fun r => decide (r.token ≠ t)) := by
    rw [hdrop]
    simp only [deleteTokenRows]
    apply List.filter_congr
    intro r _
    by_cases hr : r.token = t
    · simp [hr]
    · simp [hr]
  refine ⟨htok, by rw [hdrop], by rw [hdrop], ?_, ?_, ?_⟩
  · intro habsent
    rw [hdrop]
    have hall : deleteTokenRows t db.tokens = db.tokens := by
      unfold deleteTokenRows
      rw [List.filter_eq_self]
      intro r hr
      simpa using habsent r hr
    rw [hall]
  · rw [hdrop]
    unfold getToken
    by_cases hs : shouldCleanupDb steadyAtCheck { db with tokens := deleteTokenRows t db.tokens } = true
    · simp [hv, hs, cleanupDb, deleteTokensBefore_deleteTokenRows,
        selectTokens_deleteTokenRows_same]
    · simp [hv, hs, selectTokens_deleteTokenRows_same]
  · intro other hne
    apply getToken_snd_congr
    · rw [hdrop]
    · intro cutoff
      rw [hdrop]
      simp only []
      rw [deleteTokensBefore_deleteTokenRows, selectTokens_deleteTokenRows_other _ _ hne]
    · rw [hdrop]
      exact selectTokens_deleteTokenRows_other _ _ hne _

/-- Witness for C9: dropping `ab` from `busyStore` leaves exactly the row of
`otherToken`, which is still returned. -/
theorem dropToken_deletes_exactly_the_row_witness :
    IsLowerHex "ab" ∧
    busyStore.tokens =
      [{ token := "ab", fingerprint := "cd", epoch := .integer 99 },
       { token := "0f", fingerprint := "cd", epoch := .integer 9000 }] ∧
    (dropToken "ab" busyStore).tokens =
      [{ token := "0f", fingerprint := "cd", epoch := .integer 9000 }] ∧
    (getToken 1000 1000 9100 "ab" (dropToken "ab" busyStore)).2 = .returns none ∧
    (getToken 1000 1000 9100 "0f" (dropToken "ab" busyStore)).2 = .returns (some otherToken) :=
  have h := dropToken_deletes_exactly_the_row busyStore "ab" (by decide) 1000 1000 9100
  ⟨by decide, by decide, h.1.trans (by decide), h.2.2.2.2.1,
    (h.2.2.2.2.2 "0f" (by decide)).trans (by decide)⟩

end Db

namespace Db

/-! ### Sweep (C10) -/

theorem deleteTokensBefore_eq_unexpired (wallNow : Int) (table : List TokenRow)
    (h0 : (DB_TOKEN_LIFE_LENGTH_S : Int) ≤ wallNow) (h1 : wallNow < 2 ^ 63) :
    deleteTokensBefore
        (sqlIntegerLiteral (toUInt64 (wallNow - (DB_TOKEN_LIFE_LENGTH_S : Int)))) table =
      table.filter (fun r => !(expired DB_TOKEN_LIFE_LENGTH_S wallNow r.epoch)) := by
  unfold deleteTokensBefore
  rw [cutoff_literal _ _ h0 h1]
  apply List.filter_congr
  intro r _
  rw [sqlLt_cutoff_eq_expired]

theorem deleteChallengesBefore_eq_unexpired (wallNow : Int) (table : List ChallengeRow)
    (h0 : (DB_CHALLENGE_LIFE_LENGTH_S : Int) ≤ wallNow) (h1 : wallNow < 2 ^ 63) :
    deleteChallengesBefore
        (sqlIntegerLiteral (toUInt64 (wallNow - (DB_CHALLENGE_LIFE_LENGTH_S : Int)))) table =
      table.filter (fun r => !(expired DB_CHALLENGE_LIFE_LENGTH_S wallNow r.epoch)) := by
  unfold deleteChallengesBefore
  rw [cutoff_literal _ _ h0 h1]
  apply List.filter_congr
  intro r _
  rw [sqlLt_cutoff_eq_expired]

/-- C10, evaluated on the code at a wall clock below a lifetime.  The claim says a
token with epoch `now - 1` survives the sweep, and `DB_TOKEN_LIFE_LENGTH_S` is
commented `1hr` in the source.  At `now = 100` the cut-off `TIME - 3600`, computed
in `uint64_t`, wraps to 18446744073709548116, and `cleanupDb` deletes the token
granted at second 99 (one second old, not expired) and the challenge issued at
second 50 (not expired either). -/
theorem sweep_below_lifetime_deletes_fresh_rows :
    toUInt64 (100 - (DB_TOKEN_LIFE_LENGTH_S : Int)) = 18446744073709548116 ∧
    (addToken sampleToken emptyStore).tokens =
      [{ token := "ab", fingerprint := "cd", epoch := .integer 99 }] ∧
    expired 3600 100 (.integer 99) = false ∧
    (cleanupDb 0 100 (addToken sampleToken emptyStore)).tokens = [] ∧
    (cleanupDb 0 100 (addToken sampleToken emptyStore)).tokens ≠
      (addToken sampleToken emptyStore).tokens.filter
        (fun r => !(expired 3600 100 r.epoch)) ∧
    (addChallenge { sampleChallenge with epoch := 50 } emptyStore).challenges =
      [{ nonce := "ab", fingerprint := "cd", difficulty := .integer 4, epoch := .integer 50 }] ∧
    expired 600 100 (.integer 50) = false ∧
    (cleanupDb 0 100 (addChallenge { sampleChallenge with epoch := 50 } emptyStore)).challenges =
      [] := by
  decide

/-- Where the cut-off does not wrap the sweep is exact.  For every store state and
every wall-clock time `now` that is a `time_t` (below `2^63`): when `now ≥ 3600`,
after `cleanupDb` the tokens table holds exactly the prior token rows that are not
expired (not `now - epoch > 3600`), so a token with epoch `now - 1` survives and no
surviving token is older than one hour; when `now ≥ 600`, the challenges table
holds exactly the prior challenge rows that are not expired (not
`now - epoch > 600`).  `m_lastDbCleanup` becomes the steady-clock reading. -/
theorem cleanupDb_keeps_exactly_unexpired (db : CDatabase) (steadyNow wallNow : Int)
    (htime : wallNow < 2 ^ 63) :
    ((3600 : Int) ≤ wallNow →
      (cleanupDb steadyNow wallNow db).tokens =
          db.tokens.filter (fun r => !(expired 3600 wallNow r.epoch)) ∧
      (∀ r ∈ db.tokens, r.epoch = .integer (wallNow - 1) →
        r ∈ (cleanupDb steadyNow wallNow db).tokens) ∧
      (∀ r ∈ (cleanupDb steadyNow wallNow db).tokens, ∀ e : Int,
        r.epoch = .integer e → ¬ (wallNow - e > 3600))) ∧
    ((600 : Int) ≤ wallNow →
      (cleanupDb steadyNow wallNow db).challenges =
        db.challenges.filter (fun r => !(expired 600 wallNow r.epoch))) ∧
    (cleanupDb steadyNow wallNow db).m_lastDbCleanup = steadyNow := by
  refine ⟨?_, ?_, rfl⟩
  · intro h0
    have heq : (cleanupDb steadyNow wallNow db).tokens =
        db.tokens.filter (fun r => !(expired 3600 wallNow r.epoch)) :=
      deleteTokensBefore_eq_unexpired wallNow db.tokens h0 htime
    refine ⟨heq, ?_, ?_⟩
    · intro r hr hepoch
      rw [heq, List.mem_filter]
      refine ⟨hr, ?_⟩
      rw [hepoch]
      simp only [expired, Bool.not_eq_true', decide_eq_false_iff_not]
      omega
    · intro r hr e hepoch
      rw [heq, List.mem_filter] at hr
      have hne := hr.2
      rw [hepoch] at hne
      simpa [expired] using hne
  · intro h0
    exact deleteChallengesBefore_eq_unexpired wallNow db.challenges h0 htime

/-- Worked instance of the exact sweep: `busyStore` swept at `now = 9001`.  The token
granted at second 99 is gone, the one granted at second 9000 (`now - 1`) is kept,
and the challenge issued at second 1000 is gone. -/
theorem cleanupDb_keeps_exactly_unexpired_witness :
    (9001 : Int) < 2 ^ 63 ∧ (3600 : Int) ≤ 9001 ∧ (600 : Int) ≤ 9001 ∧
    (cleanupDb 5 9001 busyStore).tokens =
      [{ token := "0f", fingerprint := "cd", epoch := .integer 9000 }] ∧
    (cleanupDb 5 9001 busyStore).challenges = [] ∧
    (cleanupDb 5 9001 busyStore).m_lastDbCleanup = 5 :=
  have h := cleanupDb_keeps_exactly_unexpired busyStore 5 9001 (by decide)
  ⟨by decide, by decide, by decide, (h.1 (by decide)).1.trans (by decide),
    (h.2.1 (by decide)).trans (by decide), h.2.2⟩

end Db

namespace Db

/-! ### The sweep gate (C11, C12) -/

theorem toUInt64_of_nonneg (i : Int) (h0 : 0 ≤ i) (h1 : i < 2 ^ 64) :
    toUInt64 i = i.toNat := by
  unfold toUInt64
  rw [Int.emod_eq_of_lt h0 h1]

theorem shouldCleanupDb_iff (steadyNow : Int) (db : CDatabase)
    (h0 : db.m_lastDbCleanup ≤ steadyNow) (h1 : steadyNow - db.m_lastDbCleanup < 2 ^ 63) :
    shouldCleanupDb steadyNow db = true ↔ steadyNow - db.m_lastDbCleanup > 600000 := by
  unfold shouldCleanupDb
  rw [toUInt64_of_nonneg _ (by omega) (by omega)]
  simp only [DB_TIME_BEFORE_CLEANUP_MS, decide_eq_true_eq]
  omega

theorem getToken_state (steadyAtCheck steadyAtSweep wallNow : Int) (token : String)
    (db : CDatabase) :
    (getToken steadyAtCheck steadyAtSweep wallNow token db).1 =
      if getTokenRunsCleanup steadyAtCheck token db = true
      then cleanupDb steadyAtSweep wallNow db else db := by
  unfold getToken getTokenRunsCleanup
  by_cases hv : isHashValid token = true
  · by_cases hs : shouldCleanupDb steadyAtCheck db = true
    · simp only [hv, hs, Bool.not_true, Bool.false_eq_true, if_false, if_true, Bool.and_self]
      split <;> [rfl; (split <;> rfl)]
    · simp only [hv, hs, Bool.not_true, Bool.false_eq_true, if_false, Bool.true_and]
      split <;> [rfl; (split <;> rfl)]
  · simp [hv]

/-- C11: for every store state and every two consecutive `getToken` calls, the
first checking the gate at monotonic time `t1` (and, if it sweeps, reading the
clock again at `s1`), the second checking at `t2`, with `t1 ≤ s1 ≤ t2` and
`t2 - t1 ≤ 600000` ms, at most one of the two calls invokes `cleanupDb`.  A call
invokes `cleanupDb` exactly when its store afterwards is the swept store. -/
theorem sweep_gate_at_most_once (db : CDatabase) (t1 s1 w1 t2 s2 w2 : Int)
    (token1 token2 : String) (h1 : t1 ≤ s1) (h2 : s1 ≤ t2) (h3 : t2 - t1 ≤ 600000) :
    ¬ (getTokenRunsCleanup t1 token1 db = true ∧
        getTokenRunsCleanup t2 token2 (getToken t1 s1 w1 token1 db).1 = true) ∧
    (getToken t1 s1 w1 token1 db).1 =
      (if getTokenRunsCleanup t1 token1 db = true then cleanupDb s1 w1 db else db) ∧
    (getToken t2 s2 w2 token2 (getToken t1 s1 w1 token1 db).1).1 =
      (if getTokenRunsCleanup t2 token2 (getToken t1 s1 w1 token1 db).1 = true
       then cleanupDb s2 w2 (getToken t1 s1 w1 token1 db).1
       else (getToken t1 s1 w1 token1 db).1) := by
  refine ⟨?_, getToken_state _ _ _ _ _, getToken_state _ _ _ _ _⟩
  rintro ⟨hfirst, hsecond⟩
  rw [getToken_state, if_pos hfirst] at hsecond
  unfold getTokenRunsCleanup at hsecond
  have hs : shouldCleanupDb t2 (cleanupDb s1 w1 db) = true := by
    simp only [Bool.and_eq_true] at hsecond
    exact hsecond.2
  have hlast : (cleanupDb s1 w1 db).m_lastDbCleanup = s1 := rfl
  rw [shouldCleanupDb_iff t2 _ (by rw [hlast]; exact h2) (by rw [hlast]; omega), hlast] at hs
  omega

/-- Witness for C11: the empty store, first call at 700000 ms (sweeps, clock read
again at 700005 ms), second call at 1200000 ms (does not sweep). -/
theorem sweep_gate_at_most_once_witness :
    (700000 : Int) ≤ 700005 ∧ (700005 : Int) ≤ 1200000 ∧ (1200000 : Int) - 700000 ≤ 600000 ∧
    getTokenRunsCleanup 700000 "ab" emptyStore = true ∧
    getTokenRunsCleanup 1200000 "0f" (getToken 700000 700005 9001 "ab" emptyStore).1 = false ∧
    ¬ (getTokenRunsCleanup 700000 "ab" emptyStore = true ∧
        getTokenRunsCleanup 1200000 "0f" (getToken 700000 700005 9001 "ab" emptyStore).1 = true) :=
  ⟨by decide, by decide, by decide, by decide, by decide,
    (sweep_gate_at_most_once emptyStore 700000 700005 9001 1200000 1200001 9500 "ab" "0f"
      (by decide) (by decide) (by decide)).1⟩

/-- C12: for every `m_lastDbCleanup` and every monotonic reading `now` not before
it (both millisecond counts, their difference an `int64_t`), `shouldCleanupDb` is
true exactly when `now - m_lastDbCleanup > 600000`; at exactly 600000 ms elapsed
it is false. -/
theorem shouldCleanupDb_iff_elapsed (db : CDatabase) (steadyNow : Int)
    (h0 : db.m_lastDbCleanup ≤ steadyNow) (h1 : steadyNow - db.m_lastDbCleanup < 2 ^ 63) :
    (shouldCleanupDb steadyNow db = true ↔ steadyNow - db.m_lastDbCleanup > 600000) ∧
    (steadyNow - db.m_lastDbCleanup = 600000 → shouldCleanupDb steadyNow db = false) := by
  have hiff := shouldCleanupDb_iff steadyNow db h0 h1
  refine ⟨hiff, ?_⟩
  intro heq
  rw [← Bool.not_eq_true, hiff]
  omega

/-- Witness for C12: last sweep at 5 ms; the gate is closed at 600005 ms and open
at 600006 ms. -/
theorem shouldCleanupDb_iff_elapsed_witness :
    (cleanupDb 5 9001 emptyStore).m_lastDbCleanup ≤ 600005 ∧
    (600005 : Int) - (cleanupDb 5 9001 emptyStore).m_lastDbCleanup < 2 ^ 63 ∧
    shouldCleanupDb 600005 (cleanupDb 5 9001 emptyStore) = false ∧
    shouldCleanupDb 600006 (cleanupDb 5 9001 emptyStore) = true :=
  ⟨by decide, by decide,
    (shouldCleanupDb_iff_elapsed (cleanupDb 5 9001 emptyStore) 600005 (by decide)
      (by decide)).2 (by decide),
    by decide⟩

end Db

namespace Db

/-! ### Construction (C13) -/

theorem stoi_returns_range (s : String) (v : Int) (h : stoi s = .returns v) :
    -(2 : Int) ^ 31 ≤ v ∧ v < (2 : Int) ^ 31 := by
  unfold stoi at h
  cases hscan : scanInteger s.toList with
  | none => rw [hscan] at h; exact absurd h (by simp)
  | some p =>
    obtain ⟨neg, m⟩ := p
    rw [hscan] at h
    simp only at h
    generalize (if neg = true then -(m : Int) else (m : Int)) = val at h
    by_cases hr : -(2 : Int) ^ 31 ≤ val ∧ val < (2 : Int) ^ 31
    · rw [if_pos hr] at h
      simp only [Outcome.returns.injEq] at h
      rw [← h]; exact hr
    · rw [if_neg hr] at h
      exact absurd h (by simp)

/-- C13 as stated fails.  With the marker text `abc` (content other than 2)
`std::stoi` throws `invalid_argument` and construction does not succeed; with the
marker text `2abc` (content other than 2) `std::stoi` returns 2, the database is
opened as it is and the unexpired token row is still there. -/
theorem construct_with_unparsable_or_prefixed_marker :
    (busyDir (some "abc")).dbFile ≠ none ∧
    constructCDatabase 5 9001 (busyDir (some "abc")) = .throws .invalid_argument ∧
    (busyDir (some "2abc")).dbFile ≠ none ∧
    constructCDatabase 5 9001 (busyDir (some "2abc")) =
      .returns
        ({ challenges := []
           tokens := [{ token := "0f", fingerprint := "cd", epoch := .integer 9000 }]
           m_lastDbCleanup := 5 },
         { dbFile := some ([], [{ token := "0f", fingerprint := "cd", epoch := .integer 9000 }])
           schemaFile := some "2abc" }) := by
  decide

/-- C13 amended: for every on-disk state in which the database file exists, the
constructor follows what `std::stoi` reads off the marker (after one trailing
newline is dropped).  Marker file missing, or read as an integer other than 2:
construction succeeds and yields a store whose challenges and tokens tables are
both empty and whose marker file contains `2`; all prior rows are gone.  Marker
not empty and `std::stoi` throws on it: construction throws that exception.
Marker read as 2: the database is opened as it is, swept once, and the marker is
left as it was. -/
theorem construct_follows_marker (steadyNow wallNow : Int) (dir : DataDir)
    (challenges : List ChallengeRow) (tokens : List TokenRow)
    (hdb : dir.dbFile = some (challenges, tokens)) :
    (dir.schemaFile = none →
      constructCDatabase steadyNow wallNow dir = .returns freshInitialisation) ∧
    (∀ marker version, dir.schemaFile = some marker →
      stoi (readFileAsText marker) = .returns version → version ≠ 2 →
      constructCDatabase steadyNow wallNow dir = .returns freshInitialisation) ∧
    (freshInitialisation.1.challenges = [] ∧ freshInitialisation.1.tokens = [] ∧
      freshInitialisation.2.dbFile = some ([], []) ∧
      freshInitialisation.2.schemaFile = some "2") ∧
    (∀ marker e, dir.schemaFile = some marker → marker ≠ "" →
      stoi (readFileAsText marker) = .throws e →
      constructCDatabase steadyNow wallNow dir = .throws e) ∧
    (∀ marker, dir.schemaFile = some marker → stoi (readFileAsText marker) = .returns 2 →
      constructCDatabase steadyNow wallNow dir =
        .returns
          (cleanupDb steadyNow wallNow
            { challenges := challenges, tokens := tokens, m_lastDbCleanup := neverSwept },
           { dbFile := some
               ((cleanupDb steadyNow wallNow
                  { challenges := challenges, tokens := tokens,
                    m_lastDbCleanup := neverSwept }).challenges,
                (cleanupDb steadyNow wallNow
                  { challenges := challenges, tokens := tokens,
                    m_lastDbCleanup := neverSwept }).tokens)
             schemaFile := some marker })) := by
  obtain ⟨dbFile, schemaFile⟩ := dir
  simp only at hdb
  subst hdb
  refine ⟨?_, ?_, ⟨rfl, rfl, rfl, by decide⟩, ?_, ?_⟩
  · intro hnone
    simp only at hnone
    subst hnone
    rfl
  · intro marker version hsome hparse hne
    simp only at hsome
    subst hsome
    have hrange := stoi_returns_range _ _ hparse
    have hmis : ¬ (toUInt64 version = DB_SCHEMA_VERSION) := by
      unfold toUInt64 DB_SCHEMA_VERSION
      omega
    simp only [constructCDatabase, hparse, hmis, if_false]
  · intro marker e hsome _ hparse
    simp only at hsome
    subst hsome
    simp only [constructCDatabase, hparse]
  · intro marker hsome hparse
    simp only at hsome
    subst hsome
    have hmatch : toUInt64 2 = DB_SCHEMA_VERSION := by decide
    simp only [constructCDatabase, hparse, hmatch, if_true]

/-- Witness for the amended C13 on the database of `busyStore`: no marker and the
marker `3` with a newline recreate the database; the marker `abc` makes the
constructor throw; the marker `2` with a newline opens the database as it is, and
the sweep at second 9001 leaves the token granted at second 9000. -/
theorem construct_follows_marker_witness :
    (busyDir none).dbFile = some (busyStore.challenges, busyStore.tokens) ∧
    constructCDatabase 5 9001 (busyDir none) = .returns freshInitialisation ∧
    stoi (readFileAsText "3\n") = .returns 3 ∧
    constructCDatabase 5 9001 (busyDir (some "3\n")) = .returns freshInitialisation ∧
    freshInitialisation.1.challenges = [] ∧ freshInitialisation.1.tokens = [] ∧
    freshInitialisation.2.schemaFile = some "2" ∧
    stoi (readFileAsText "abc") = .throws .invalid_argument ∧
    constructCDatabase 5 9001 (busyDir (some "abc")) = .throws .invalid_argument ∧
    stoi (readFileAsText "2\n") = .returns 2 ∧
    constructCDatabase 5 9001 (busyDir (some "2\n")) =
      .returns
        ({ challenges := []
           tokens := [{ token := "0f", fingerprint := "cd", epoch := .integer 9000 }]
           m_lastDbCleanup := 5 },
         { dbFile := some ([], [{ token := "0f", fingerprint := "cd", epoch := .integer 9000 }])
           schemaFile := some "2\n" }) :=
  have hnone := construct_follows_marker 5 9001 (busyDir none) busyStore.challenges
    busyStore.tokens rfl
  have hother := construct_follows_marker 5 9001 (busyDir (some "3\n")) busyStore.challenges
    busyStore.tokens rfl
  have hbad := construct_follows_marker 5 9001 (busyDir (some "abc")) busyStore.challenges
    busyStore.tokens rfl
  have hsame := construct_follows_marker 5 9001 (busyDir (some "2\n")) busyStore.challenges
    busyStore.tokens rfl
  ⟨rfl, hnone.1 rfl, by decide, hother.2.1 "3\n" 3 rfl (by decide) (by decide),
    hnone.2.2.1.1, hnone.2.2.1.2.1, hnone.2.2.1.2.2.2, by decide,
    hbad.2.2.2.1 "abc" .invalid_argument rfl (by decide) (by decide), by decide,
    (hsame.2.2.2.2 "2\n" rfl (by decide)).trans (by decide)⟩

end Db

namespace Db

/-! ### Reading a stored row (C14, C16, C17) -/

theorem selectChallenges_of_row (nonce : String) (table : List ChallengeRow) (row : ChallengeRow)
    (hrow : table.filter (fun r => r.nonce == nonce) = [row]) :
    selectChallenges nonce table = row.columns := by
  unfold selectChallenges
  rw [hrow]
  simp

theorem selectTokens_of_row (token : String) (table : List TokenRow) (row : TokenRow)
    (hrow : table.filter (fun r => r.token == token) = [row]) :
    selectTokens token table = row.columns := by
  unfold selectTokens
  rw [hrow]
  simp

theorem filter_token_deleteTokensBefore (token : String) (cutoff : SqlValue)
    (table : List TokenRow) :
    (deleteTokensBefore cutoff table).filter (fun r => r.token == token) =
      (table.filter (fun r => r.token == token)).filter (fun r => !(sqlLt r.epoch cutoff)) := by
  unfold deleteTokensBefore
  rw [List.filter_filter, List.filter_filter]
  apply List.filter_congr
  intro r _
  exact Bool.and_comm _ _

theorem sqlLt_text_literal (s : String) (n : Nat) : sqlLt (.text s) (sqlIntegerLiteral n) = false := by
  unfold sqlIntegerLiteral
  split <;> rfl

/-- What `getChallenge` does with the one row stored under a valid nonce. -/
theorem getChallenge_of_row (db : CDatabase) (nonce : String) (row : ChallengeRow)
    (hnonce : IsLowerHex nonce)
    (hrow : db.challenges.filter (fun r => r.nonce == nonce) = [row]) :
    getChallenge nonce db =
      match stoi (columnText row.difficulty) with
      | .throws e => (db, .throws e)
      | .returns difficulty =>
        match stoull (columnText row.epoch) with
        | .throws e => (db, .throws e)
        | .returns epoch =>
          (db, .returns (some
            { nonce := nonce, difficulty := difficulty, epoch := epoch,
              fingerprint := row.fingerprint })) := by
  have hv : isHashValid nonce = true := (isHashValid_iff _).mpr hnonce
  have hsel := selectChallenges_of_row nonce db.challenges row hrow
  simp only [getChallenge, hv, hsel, ChallengeRow.columns, Bool.not_true, Bool.false_eq_true,
    if_false, List.length_cons, List.length_nil, List.getD_cons_succ, List.getD_cons_zero]
  simp

/-- What `getToken` does with the one row it finds under a valid token after the
gate. -/
theorem getToken_of_row (steadyAtCheck steadyAtSweep wallNow : Int) (db : CDatabase)
    (token : String) (row : TokenRow) (htoken : IsLowerHex token)
    (hrow : (if shouldCleanupDb steadyAtCheck db = true
        then cleanupDb steadyAtSweep wallNow db else db).tokens.filter
          (fun r => r.token == token) = [row]) :
    (getToken steadyAtCheck steadyAtSweep wallNow token db).2 =
      match stoull (columnText row.epoch) with
      | .throws e => .throws e
      | .returns epoch =>
        .returns (some { token := token, epoch := epoch, fingerprint := row.fingerprint }) := by
  have hv : isHashValid token = true := (isHashValid_iff _).mpr htoken
  have hsel := selectTokens_of_row token _ row hrow
  simp only [getToken, hv, Bool.not_true, Bool.false_eq_true, if_false]
  simp only [hsel, TokenRow.columns, List.length_cons, List.length_nil, List.getD_cons_succ,
    List.getD_cons_zero]
  cases stoull (columnText row.epoch) <;> simp

/-- C14 as stated fails: on a store whose `ab` challenge has the text `abc` as
difficulty and whose `ab` token has the text `soon` as epoch, `getChallenge` and
`getToken` raise `invalid_argument`; with difficulty 2147483648 `getChallenge`
raises `out_of_range`.  None of the calls returns nothing. -/
theorem unparsable_row_raises :
    stoi (columnText (.text "abc")) = .throws .invalid_argument ∧
    (getChallenge "ab" unparsableStore).2 = .throws .invalid_argument ∧
    (getChallenge "ab" unparsableStore).2 ≠ .returns none ∧
    stoull (columnText (.text "soon")) = .throws .invalid_argument ∧
    (getToken 1000 1000 5000 "ab" unparsableStore).2 = .throws .invalid_argument ∧
    (getToken 1000 1000 5000 "ab" unparsableStore).2 ≠ .returns none ∧
    stoi (columnText (.integer 2147483648)) = .throws .out_of_range ∧
    (getChallenge "ab" outOfRangeStore).2 = .throws .out_of_range := by
  decide

/-- C14 amended: a parse failure on read is raised, not turned into "not found".
For every store and every lowercase-hex nonce under which exactly one challenge
row is stored: when `std::stoi` throws on the difficulty text, or `std::stoi`
succeeds and `std::stoull` throws on the epoch text, `getChallenge` on that nonce
raises that exception and leaves the store unchanged; nothing is asked of the
tokens table.  For every store and every lowercase-hex token: when exactly one
token row is found under it after the sweep gate and `std::stoull` throws on its
epoch text, `getToken` raises that exception; in particular, when exactly one
token row is stored under it and its epoch cell is a text on which `std::stoull`
throws, `getToken` raises that exception whether or not it sweeps first.  Nothing
is asked of the challenges table. -/
theorem parse_failure_is_raised (db : CDatabase) (steadyAtCheck steadyAtSweep wallNow : Int) :
    (∀ (nonce : String) (row : ChallengeRow) (e : CppException), IsLowerHex nonce →
      db.challenges.filter (fun r => r.nonce == nonce) = [row] →
      stoi (columnText row.difficulty) = .throws e →
      getChallenge nonce db = (db, .throws e)) ∧
    (∀ (nonce : String) (row : ChallengeRow) (d : Int) (e : CppException), IsLowerHex nonce →
      db.challenges.filter (fun r => r.nonce == nonce) = [row] →
      stoi (columnText row.difficulty) = .returns d →
      stoull (columnText row.epoch) = .throws e →
      getChallenge nonce db = (db, .throws e)) ∧
    (∀ (token : String) (row : TokenRow) (e : CppException), IsLowerHex token →
      (getToken steadyAtCheck steadyAtSweep wallNow token db).1.tokens.filter
        (fun r => r.token == token) = [row] →
      stoull (columnText row.epoch) = .throws e →
      (getToken steadyAtCheck steadyAtSweep wallNow token db).2 = .throws e) ∧
    (∀ (token : String) (row : TokenRow) (s : String) (e : CppException), IsLowerHex token →
      db.tokens.filter (fun r => r.token == token) = [row] →
      row.epoch = .text s → stoull s = .throws e →
      (getToken steadyAtCheck steadyAtSweep wallNow token db).2 = .throws e) := by
  refine ⟨?_, ?_, ?_, ?_⟩
  · intro nonce row e hnonce hrow he
    rw [getChallenge_of_row db nonce row hnonce hrow, he]
  · intro nonce row d e hnonce hrow hd he
    rw [getChallenge_of_row db nonce row hnonce hrow, hd]
    simp only [he]
  · intro token row e htoken hrow he
    have hv : isHashValid token = true := (isHashValid_iff _).mpr htoken
    rw [getToken_state] at hrow
    have hgate : (if shouldCleanupDb steadyAtCheck db = true
        then cleanupDb steadyAtSweep wallNow db else db).tokens.filter
          (fun r => r.token == token) = [row] := by
      simpa [getTokenRunsCleanup, hv] using hrow
    rw [getToken_of_row steadyAtCheck steadyAtSweep wallNow db token row htoken hgate, he]
  · intro token row s e htoken htokenRow hs he
    have hrow : (if shouldCleanupDb steadyAtCheck db = true
        then cleanupDb steadyAtSweep wallNow db else db).tokens.filter
          (fun r => r.token == token) = [row] := by
      split
      · simp only [cleanupDb]
        rw [filter_token_deleteTokensBefore, htokenRow]
        simp [List.filter, hs, sqlLt_text_literal]
      · exact htokenRow
    rw [getToken_of_row steadyAtCheck steadyAtSweep wallNow db token row htoken hrow, hs]
    simp only [columnText, he]

/-- Witness for the amended C14: `outOfRangeStore` and `unparsableEpochStore`, whose
tokens tables are empty, for the two challenge cases; `unparsableStore`, with a
sweep due, for the token cases. -/
theorem parse_failure_is_raised_witness :
    IsLowerHex "ab" ∧
    outOfRangeStore.tokens = [] ∧
    stoi (columnText (.integer 2147483648)) = .throws .out_of_range ∧
    getChallenge "ab" outOfRangeStore = (outOfRangeStore, .throws .out_of_range) ∧
    stoi (columnText (.integer 4)) = .returns 4 ∧
    stoull (columnText (.text "never")) = .throws .invalid_argument ∧
    getChallenge "ab" unparsableEpochStore = (unparsableEpochStore, .throws .invalid_argument) ∧
    getChallenge "ab" unparsableStore = (unparsableStore, .throws .invalid_argument) ∧
    shouldCleanupDb 700000 unparsableStore = true ∧
    (getToken 700000 700000 5000 "ab" unparsableStore).1.tokens.filter
        (fun r => r.token == "ab") =
      [{ token := "ab", fingerprint := "cd", epoch := .text "soon" }] ∧
    (getToken 700000 700000 5000 "ab" unparsableStore).2 = .throws .invalid_argument ∧
    (getToken 1000 1000 5000 "ab" unparsableStore).2 = .throws .invalid_argument :=
  have hrange := parse_failure_is_raised outOfRangeStore 700000 700000 5000
  have hepoch := parse_failure_is_raised unparsableEpochStore 700000 700000 5000
  have hopen := parse_failure_is_raised unparsableStore 700000 700000 5000
  have hclosed := parse_failure_is_raised unparsableStore 1000 1000 5000
  ⟨by decide, rfl, by decide,
    hrange.1 "ab"
      { nonce := "ab", fingerprint := "cd", difficulty := .integer 2147483648,
        epoch := .integer 1000 }
      .out_of_range (by decide) (by decide) (by decide),
    by decide, by decide,
    hepoch.2.1 "ab"
      { nonce := "ab", fingerprint := "cd", difficulty := .integer 4, epoch := .text "never" }
      4 .invalid_argument (by decide) (by decide) (by decide) (by decide),
    hopen.1 "ab"
      { nonce := "ab", fingerprint := "cd", difficulty := .text "abc", epoch := .integer 1000 }
      .invalid_argument (by decide) (by decide) (by decide),
    by decide, by decide,
    hopen.2.2.1 "ab" { token := "ab", fingerprint := "cd", epoch := .text "soon" }
      .invalid_argument (by decide) (by decide) (by decide),
    hclosed.2.2.2 "ab" { token := "ab", fingerprint := "cd", epoch := .text "soon" } "soon"
      .invalid_argument (by decide) (by decide) rfl (by decide)⟩

end Db

namespace Db

/-! ### Stored identifiers (C15) -/

theorem getChallenge_state (nonce : String) (db : CDatabase) : (getChallenge nonce db).1 = db := by
  unfold getChallenge
  split
  · rfl
  · simp only
    split
    · rfl
    · split
      · rfl
      · split <;> rfl

theorem storedIdentifiers_of_sublists (p : String → Prop) (db db2 : CDatabase)
    (hc : ∀ r ∈ db2.challenges, r ∈ db.challenges) (ht : ∀ r ∈ db2.tokens, r ∈ db.tokens)
    (h : StoredIdentifiers p db) : StoredIdentifiers p db2 :=
  ⟨fun r hr => h.1 r (hc r hr), fun r hr => h.2 r (ht r hr)⟩

theorem storedIdentifiers_addChallenge (entry : SDatabaseChallengeEntry) (db : CDatabase)
    (h : StoredIdentifiers IsLowerHex db) : StoredIdentifiers IsLowerHex (addChallenge entry db) := by
  by_cases hv1 : isHashValid entry.nonce = true
  · by_cases hv2 : isHashValid entry.fingerprint = true
    · simp only [addChallenge, hv1, hv2, Bool.not_true, Bool.false_eq_true, if_false]
      refine ⟨?_, h.2⟩
      intro r hr
      simp only [insertChallengeRow] at hr
      split at hr
      · exact h.1 r hr
      · rw [List.mem_append, List.mem_singleton] at hr
        rcases hr with hr | hr
        · exact h.1 r hr
        · rw [hr]
          exact ⟨(isHashValid_iff _).mp hv1, (isHashValid_iff _).mp hv2⟩
    · rw [addChallenge_of_invalid _ _ (Or.inr (by simpa using hv2))]; exact h
  · rw [addChallenge_of_invalid _ _ (Or.inl (by simpa using hv1))]; exact h

theorem storedIdentifiers_addToken (entry : SDatabaseTokenEntry) (db : CDatabase)
    (h : StoredIdentifiers IsLowerHex db) : StoredIdentifiers IsLowerHex (addToken entry db) := by
  by_cases hv1 : isHashValid entry.token = true
  · by_cases hv2 : isHashValid entry.fingerprint = true
    · simp only [addToken, hv1, hv2, Bool.not_true, Bool.false_eq_true, if_false]
      refine ⟨h.1, ?_⟩
      intro r hr
      simp only [insertTokenRow] at hr
      split at hr
      · exact h.2 r hr
      · rw [List.mem_append, List.mem_singleton] at hr
        rcases hr with hr | hr
        · exact h.2 r hr
        · rw [hr]
          exact ⟨(isHashValid_iff _).mp hv1, (isHashValid_iff _).mp hv2⟩
    · rw [addToken_of_invalid _ _ (Or.inr (by simpa using hv2))]; exact h
  · rw [addToken_of_invalid _ _ (Or.inl (by simpa using hv1))]; exact h

theorem storedIdentifiers_cleanupDb (p : String → Prop) (steadyNow wallNow : Int)
    (db : CDatabase) (h : StoredIdentifiers p db) :
    StoredIdentifiers p (cleanupDb steadyNow wallNow db) :=
  storedIdentifiers_of_sublists p db _
    (fun _ hr => (List.mem_filter.mp hr).1) (fun _ hr => (List.mem_filter.mp hr).1) h

theorem storedIdentifiers_dropToken (p : String → Prop) (token : String) (db : CDatabase)
    (h : StoredIdentifiers p db) : StoredIdentifiers p (dropToken token db) := by
  unfold dropToken
  split
  · exact h
  · exact storedIdentifiers_of_sublists p db _ (fun _ hr => hr)
      (fun _ hr => (List.mem_filter.mp hr).1) h

theorem storedIdentifiers_dropChallenge (p : String → Prop) (nonce : String) (db : CDatabase)
    (h : StoredIdentifiers p db) : StoredIdentifiers p (dropChallenge nonce db) := by
  unfold dropChallenge
  split
  · exact h
  · exact storedIdentifiers_of_sublists p db _ (fun _ hr => hr)
      (fun _ hr => (List.mem_filter.mp hr).1) h

theorem storedIdentifiers_apply (op : Operation) (db : CDatabase)
    (h : StoredIdentifiers IsLowerHex db) : StoredIdentifiers IsLowerHex (op.apply db) := by
  cases op with
  | addChallenge entry => exact storedIdentifiers_addChallenge entry db h
  | addToken entry => exact storedIdentifiers_addToken entry db h
  | getChallenge nonce =>
    simp only [Operation.apply, getChallenge_state]; exact h
  | getToken steadyAtCheck steadyAtSweep wallNow token =>
    simp only [Operation.apply, getToken_state]
    split
    · exact storedIdentifiers_cleanupDb _ _ _ _ h
    · exact h
  | dropChallenge nonce => exact storedIdentifiers_dropChallenge _ nonce db h
  | dropToken token => exact storedIdentifiers_dropToken _ token db h
  | cleanupDb steadyNow wallNow => exact storedIdentifiers_cleanupDb _ _ _ _ h

theorem storedIdentifiers_run (ops : List Operation) (db : CDatabase)
    (h : StoredIdentifiers IsLowerHex db) :
    StoredIdentifiers IsLowerHex (runOperations ops db) := by
  induction ops generalizing db with
  | nil => exact h
  | cons op rest ih =>
    simp only [runOperations, List.foldl_cons]
    exact ih _ (storedIdentifiers_apply op db h)

/-- C15 as stated fails: `addChallenge` with an empty nonce and an empty
fingerprint passes the validator, and the freshly initialised store then holds a
row whose nonce and fingerprint are empty, which `[0-9a-f]+` does not match. -/
theorem empty_identifier_is_stored :
    (runOperations [.addChallenge emptyNonceChallenge] freshInitialisation.1).challenges =
      [{ nonce := "", fingerprint := "", difficulty := .integer 1, epoch := .integer 1000 }] ∧
    ¬ MatchesHexPlus "" ∧
    ¬ StoredIdentifiers MatchesHexPlus
        (runOperations [.addChallenge emptyNonceChallenge] freshInitialisation.1) := by
  refine ⟨by decide, by decide, ?_⟩
  intro h
  have hrow := h.1
    { nonce := "", fingerprint := "", difficulty := .integer 1, epoch := .integer 1000 }
    (by decide)
  exact absurd hrow.1 (by decide)

/-- C15 amended: starting from a freshly initialised (empty) store, whatever its
`m_lastDbCleanup`, after any finite sequence of `addChallenge`, `addToken`,
`getChallenge`, `getToken`, `dropChallenge`, `dropToken` and `cleanupDb` calls with
arbitrary arguments, every nonce, token and fingerprint held in either table
consists of lowercase hex characters only; it may be empty. -/
theorem stored_identifiers_are_lower_hex (ops : List Operation) (lastCleanup : Int) :
    StoredIdentifiers IsLowerHex
      (runOperations ops { challenges := [], tokens := [], m_lastDbCleanup := lastCleanup }) ∧
    StoredIdentifiers IsLowerHex (runOperations ops freshInitialisation.1) := by
  have hempty : ∀ t : Int, StoredIdentifiers IsLowerHex
      { challenges := [], tokens := [], m_lastDbCleanup := t } := by
    intro t
    exact ⟨fun r hr => absurd hr (List.not_mem_nil r), fun r hr => absurd hr (List.not_mem_nil r)⟩
  exact ⟨storedIdentifiers_run ops _ (hempty lastCleanup),
    storedIdentifiers_run ops _ (hempty neverSwept)⟩

end Db

namespace Db

/-! ### Sweep before lookup, reads without sweep (C16, C17, C18) -/

theorem getToken_of_no_row (steadyAtCheck steadyAtSweep wallNow : Int) (db : CDatabase)
    (token : String)
    (hrow : (if shouldCleanupDb steadyAtCheck db = true
        then cleanupDb steadyAtSweep wallNow db else db).tokens.filter
          (fun r => r.token == token) = []) :
    (getToken steadyAtCheck steadyAtSweep wallNow token db).2 = .returns none := by
  unfold getToken
  split
  · rfl
  · simp only [selectTokens, hrow]
    simp

/-- C16: for every store state holding, under a lowercase-hex key, exactly the row
of a token entry that is expired at the wall-clock time `now` (a `time_t`,
`now - epoch > 3600`): when `shouldCleanupDb` is true at the call, `getToken`
returns nothing, the store afterwards is the swept store and its
`m_lastDbCleanup` is the monotonic reading taken by the sweep; when
`shouldCleanupDb` is false, `getToken` returns the stored entry and the store is
unchanged. -/
theorem getToken_sweeps_before_lookup (db : CDatabase) (entry : SDatabaseTokenEntry)
    (steadyAtCheck steadyAtSweep wallNow : Int) (htoken : IsLowerHex entry.token)
    (hrow : db.tokens.filter (fun r => r.token == entry.token) =
      [{ token := entry.token, fingerprint := entry.fingerprint,
         epoch := sqlIntegerLiteral entry.epoch }])
    (hexpired : wallNow - (entry.epoch : Int) > 3600) (htime : wallNow < 2 ^ 63) :
    (shouldCleanupDb steadyAtCheck db = true →
      getToken steadyAtCheck steadyAtSweep wallNow entry.token db =
        (cleanupDb steadyAtSweep wallNow db, .returns none) ∧
      (getToken steadyAtCheck steadyAtSweep wallNow entry.token db).1.m_lastDbCleanup =
        steadyAtSweep) ∧
    (shouldCleanupDb steadyAtCheck db = false →
      getToken steadyAtCheck steadyAtSweep wallNow entry.token db = (db, .returns (some entry))) := by
  have hv : isHashValid entry.token = true := (isHashValid_iff _).mpr htoken
  have hsmall : entry.epoch < 2 ^ 63 := by omega
  have hcell : sqlIntegerLiteral entry.epoch = .integer (entry.epoch : Int) := by
    unfold sqlIntegerLiteral; rw [if_pos hsmall]
  constructor
  · intro hs
    have hstate : (getToken steadyAtCheck steadyAtSweep wallNow entry.token db).1 =
        cleanupDb steadyAtSweep wallNow db := by
      rw [getToken_state]
      simp [getTokenRunsCleanup, hv, hs]
    have hgone : (if shouldCleanupDb steadyAtCheck db = true
        then cleanupDb steadyAtSweep wallNow db else db).tokens.filter
          (fun r => r.token == entry.token) = [] := by
      rw [if_pos hs]
      simp only [cleanupDb]
      rw [filter_token_deleteTokensBefore, hrow,
        cutoff_literal DB_TOKEN_LIFE_LENGTH_S wallNow (by unfold DB_TOKEN_LIFE_LENGTH_S; omega)
          htime]
      rw [List.filter_eq_nil_iff]
      intro r hr
      rw [List.mem_singleton] at hr
      rw [hr]
      simp only [sqlLt_cutoff_eq_expired, hcell, expired, DB_TOKEN_LIFE_LENGTH_S,
        Bool.not_eq_true', Bool.not_eq_false, decide_eq_true_eq]
      omega
    have hres := getToken_of_no_row steadyAtCheck steadyAtSweep wallNow db entry.token hgone
    refine ⟨Prod.ext hstate hres, ?_⟩
    rw [hstate]
    rfl
  · intro hs
    have hstate : (getToken steadyAtCheck steadyAtSweep wallNow entry.token db).1 = db := by
      rw [getToken_state]
      simp [getTokenRunsCleanup, hs]
    have hkept : (if shouldCleanupDb steadyAtCheck db = true
        then cleanupDb steadyAtSweep wallNow db else db).tokens.filter
          (fun r => r.token == entry.token) =
        [{ token := entry.token, fingerprint := entry.fingerprint,
           epoch := sqlIntegerLiteral entry.epoch }] := by
      rw [if_neg (by rw [hs]; decide)]
      exact hrow
    have hres := getToken_of_row steadyAtCheck steadyAtSweep wallNow db entry.token _ htoken hkept
    simp only [stoull_columnText_literal entry.epoch hsmall] at hres
    exact Prod.ext hstate hres

/-- Witness for C16: `busyStore` holds `sampleToken` (granted at second 99), read at
wall-clock second 9001, once with the gate open and once with it closed. -/
theorem getToken_sweeps_before_lookup_witness :
    IsLowerHex sampleToken.token ∧
    busyStore.tokens.filter (fun r => r.token == sampleToken.token) =
      [{ token := sampleToken.token, fingerprint := sampleToken.fingerprint,
         epoch := sqlIntegerLiteral sampleToken.epoch }] ∧
    (9001 : Int) - (sampleToken.epoch : Int) > 3600 ∧ (9001 : Int) < 2 ^ 63 ∧
    shouldCleanupDb 700000 busyStore = true ∧
    getToken 700000 700003 9001 sampleToken.token busyStore =
      (cleanupDb 700003 9001 busyStore, .returns none) ∧
    (getToken 700000 700003 9001 sampleToken.token busyStore).1.m_lastDbCleanup = 700003 ∧
    shouldCleanupDb 1000 busyStore = false ∧
    getToken 1000 1003 9001 sampleToken.token busyStore =
      (busyStore, .returns (some sampleToken)) :=
  have hopen := getToken_sweeps_before_lookup busyStore sampleToken 700000 700003 9001
    (by decide) (by decide) (by decide) (by decide)
  have hclosed := getToken_sweeps_before_lookup busyStore sampleToken 1000 1003 9001
    (by decide) (by decide) (by decide) (by decide)
  ⟨by decide, by decide, by decide, by decide, by decide, (hopen.1 (by decide)).1,
    (hopen.1 (by decide)).2, by decide, hclosed.2 (by decide)⟩

end Db

namespace Db

/-- C17: for every store state and every string `n`, `getChallenge n` leaves the
challenges table, the tokens table and `m_lastDbCleanup` unchanged (it reads no
clock and never sweeps); hence a stored challenge that is expired at wall-clock
time `now` (`now - epoch > 600`), not having been swept, is still returned by
`getChallenge`. -/
theorem getChallenge_never_sweeps (db : CDatabase) (n : String)
    (entry : SDatabaseChallengeEntry) (wallNow : Int) :
    (getChallenge n db).1 = db ∧
    (getChallenge n db).1.challenges = db.challenges ∧
    (getChallenge n db).1.tokens = db.tokens ∧
    (getChallenge n db).1.m_lastDbCleanup = db.m_lastDbCleanup ∧
    (IsLowerHex entry.nonce →
      db.challenges.filter (fun r => r.nonce == entry.nonce) =
        [{ nonce := entry.nonce, fingerprint := entry.fingerprint,
           difficulty := .integer entry.difficulty,
           epoch := sqlIntegerLiteral entry.epoch }] →
      0 ≤ entry.difficulty → entry.difficulty < 2 ^ 31 →
      wallNow < 2 ^ 63 → wallNow - (entry.epoch : Int) > 600 →
      getChallenge entry.nonce db = (db, .returns (some entry))) := by
  have hstate := getChallenge_state n db
  refine ⟨hstate, by rw [hstate], by rw [hstate], by rw [hstate], ?_⟩
  intro hnonce hrow hd0 hd1 htime hexpired
  have hsmall : entry.epoch < 2 ^ 63 := by omega
  rw [getChallenge_of_row db entry.nonce _ hnonce hrow]
  simp only [stoi_columnText_integer entry.difficulty hd0 hd1,
    stoull_columnText_literal entry.epoch hsmall]

/-- Witness for C17: `busyStore` holds `sampleChallenge`, issued at second 1000; at
wall-clock second 9001 it is expired and `getChallenge` still returns it. -/
theorem getChallenge_never_sweeps_witness :
    (getChallenge "ab" busyStore).1 = busyStore ∧
    IsLowerHex sampleChallenge.nonce ∧
    (9001 : Int) - (sampleChallenge.epoch : Int) > 600 ∧
    getChallenge sampleChallenge.nonce busyStore = (busyStore, .returns (some sampleChallenge)) :=
  have h := getChallenge_never_sweeps busyStore "ab" sampleChallenge 9001
  ⟨h.1, by decide, by decide,
    h.2.2.2.2 (by decide) (by decide) (by decide) (by decide) (by decide) (by decide)⟩

/-- C18 as stated fails: a store constructed on an empty data directory has
`m_lastDbCleanup` at its initial value; with the monotonic clock reading 1000 ms
the first `getToken` call with the valid token `ab` does not invoke `cleanupDb`,
and `m_lastDbCleanup` keeps its initial value. -/
theorem first_getToken_may_not_sweep :
    constructCDatabase 1000 9001 { dbFile := none, schemaFile := none } =
      .returns freshInitialisation ∧
    freshInitialisation.1.m_lastDbCleanup = neverSwept ∧
    IsLowerHex "ab" ∧
    shouldCleanupDb 1000 freshInitialisation.1 = false ∧
    getTokenRunsCleanup 1000 "ab" freshInitialisation.1 = false ∧
    getToken 1000 1000 9001 "ab" freshInitialisation.1 =
      (freshInitialisation.1, .returns none) := by
  decide

/-- C18 amended: for a store constructed by fresh initialisation (`m_lastDbCleanup`
at its initial value, the default-constructed steady-clock time point) and every
monotonic clock reading at the call (a non-negative `int64_t` millisecond count),
the first `getToken` call with a valid token invokes `cleanupDb` exactly when the
clock reads more than 600000 ms; at 600000 ms or less it does not sweep. -/
theorem first_getToken_sweeps_iff (steadyAtCheck steadyAtSweep wallNow : Int) (token : String)
    (htoken : IsLowerHex token) (h0 : 0 ≤ steadyAtCheck) (h1 : steadyAtCheck < 2 ^ 63) :
    (getTokenRunsCleanup steadyAtCheck token freshInitialisation.1 = true ↔
      steadyAtCheck > 600000) ∧
    (steadyAtCheck > 600000 →
      (getToken steadyAtCheck steadyAtSweep wallNow token freshInitialisation.1).1 =
        cleanupDb steadyAtSweep wallNow freshInitialisation.1) ∧
    (steadyAtCheck ≤ 600000 →
      (getToken steadyAtCheck steadyAtSweep wallNow token freshInitialisation.1).1 =
        freshInitialisation.1) := by
  have hv : isHashValid token = true := (isHashValid_iff _).mpr htoken
  have hlast : freshInitialisation.1.m_lastDbCleanup = 0 := rfl
  have hgate := shouldCleanupDb_iff steadyAtCheck freshInitialisation.1
    (by rw [hlast]; exact h0) (by rw [hlast]; omega)
  have hiff : getTokenRunsCleanup steadyAtCheck token freshInitialisation.1 = true ↔
      steadyAtCheck > 600000 := by
    unfold getTokenRunsCleanup
    rw [hv, Bool.true_and, hgate, hlast]
    omega
  refine ⟨hiff, ?_, ?_⟩
  · intro h
    rw [getToken_state, if_pos (hiff.mpr h)]
  · intro h
    rw [getToken_state, if_neg (fun hc => by have := hiff.mp hc; omega)]

/-- Witness for the amended C18: the token `ab` at 600000 ms (no sweep) and at
600001 ms (sweep). -/
theorem first_getToken_sweeps_iff_witness :
    IsLowerHex "ab" ∧ (0 : Int) ≤ 600000 ∧ (600000 : Int) < 2 ^ 63 ∧
    getTokenRunsCleanup 600000 "ab" freshInitialisation.1 = false ∧
    (getToken 600000 600000 9001 "ab" freshInitialisation.1).1 = freshInitialisation.1 ∧
    getTokenRunsCleanup 600001 "ab" freshInitialisation.1 = true ∧
    (getToken 600001 600002 9001 "ab" freshInitialisation.1).1 =
      cleanupDb 600002 9001 freshInitialisation.1 :=
  have hat := first_getToken_sweeps_iff 600000 600000 9001 "ab" (by decide) (by decide)
    (by decide)
  have hafter := first_getToken_sweeps_iff 600001 600002 9001 "ab" (by decide) (by decide)
    (by decide)
  ⟨by decide, by decide, by decide, by decide, hat.2.2 (by decide),
    hafter.1.mpr (by decide), hafter.2.1 (by decide)⟩

/-! ### Sweep and write frames (C19, C20) -/

/-- C19: for every store state and every wall-clock time `now`, `cleanupDb` never
adds or alters a row (each table afterwards is a sublist of the table before, so
every row afterwards was there before), and running `cleanupDb` twice at the same
`now` gives the same tables as running it once. -/
theorem cleanupDb_monotone_idempotent (db : CDatabase) (steadyNow steadyAgain wallNow : Int) :
    (cleanupDb steadyNow wallNow db).tokens.Sublist db.tokens ∧
    (cleanupDb steadyNow wallNow db).challenges.Sublist db.challenges ∧
    (∀ r ∈ (cleanupDb steadyNow wallNow db).tokens, r ∈ db.tokens) ∧
    (∀ r ∈ (cleanupDb steadyNow wallNow db).challenges, r ∈ db.challenges) ∧
    (cleanupDb steadyAgain wallNow (cleanupDb steadyNow wallNow db)).tokens =
      (cleanupDb steadyNow wallNow db).tokens ∧
    (cleanupDb steadyAgain wallNow (cleanupDb steadyNow wallNow db)).challenges =
      (cleanupDb steadyNow wallNow db).challenges := by
  refine ⟨List.filter_sublist _, List.filter_sublist _,
    fun r hr => (List.mem_filter.mp hr).1, fun r hr => (List.mem_filter.mp hr).1, ?_, ?_⟩
  · simp only [cleanupDb, deleteTokensBefore, List.filter_filter, Bool.and_self]
  · simp only [cleanupDb, deleteChallengesBefore, List.filter_filter, Bool.and_self]

/-- C20: for every store state, `addChallenge e` leaves the tokens table,
`m_lastDbCleanup` and every challenge row with a nonce other than `e.nonce`
unchanged (no stored challenge row is removed either); `addToken e` and
`dropToken t` leave the challenges table, `m_lastDbCleanup` and every token row
with a different key unchanged. -/
theorem writes_are_local (db : CDatabase) (challenge : SDatabaseChallengeEntry)
    (entry : SDatabaseTokenEntry) (t : String) :
    ((addChallenge challenge db).tokens = db.tokens ∧
      (addChallenge challenge db).m_lastDbCleanup = db.m_lastDbCleanup ∧
      (addChallenge challenge db).challenges.filter (fun r => decide (r.nonce ≠ challenge.nonce)) =
        db.challenges.filter (fun r => decide (r.nonce ≠ challenge.nonce)) ∧
      (∀ r ∈ db.challenges, r ∈ (addChallenge challenge db).challenges)) ∧
    ((addToken entry db).challenges = db.challenges ∧
      (addToken entry db).m_lastDbCleanup = db.m_lastDbCleanup ∧
      (addToken entry db).tokens.filter (fun r => decide (r.token ≠ entry.token)) =
        db.tokens.filter (fun r => decide (r.token ≠ entry.token)) ∧
      (∀ r ∈ db.tokens, r ∈ (addToken entry db).tokens)) ∧
    ((dropToken t db).challenges = db.challenges ∧
      (dropToken t db).m_lastDbCleanup = db.m_lastDbCleanup ∧
      ∀ key : String, key ≠ t →
        (dropToken t db).tokens.filter (fun r => r.token == key) =
          db.tokens.filter (fun r => r.token == key)) := by
  refine ⟨?_, ?_, ?_⟩
  · unfold addChallenge
    split
    · exact ⟨rfl, rfl, rfl, fun r hr => hr⟩
    · split
      · exact ⟨rfl, rfl, rfl, fun r hr => hr⟩
      · refine ⟨rfl, rfl, ?_, ?_⟩
        · simp only [insertChallengeRow]
          split
          · rfl
          · simp [List.filter_append, List.filter]
        · intro r hr
          simp only [insertChallengeRow]
          split
          · exact hr
          · exact List.mem_append_left _ hr
  · unfold addToken
    split
    · exact ⟨rfl, rfl, rfl, fun r hr => hr⟩
    · split
      · exact ⟨rfl, rfl, rfl, fun r hr => hr⟩
      · refine ⟨rfl, rfl, ?_, ?_⟩
        · simp only [insertTokenRow]
          split
          · rfl
          · simp [List.filter_append, List.filter]
        · intro r hr
          simp only [insertTokenRow]
          split
          · exact hr
          · exact List.mem_append_left _ hr
  · unfold dropToken
    split
    · exact ⟨rfl, rfl, fun _ _ => rfl⟩
    · refine ⟨rfl, rfl, ?_⟩
      intro key hkey
      simp only [deleteTokenRows, List.filter_filter]
      apply List.filter_congr
      intro r _
      by_cases h : r.token = key
      · have hne : r.token ≠ t := by rw [h]; exact hkey
        simp [h, hkey]
      · simp [h]

/-- Worked instance of C20 on `busyStore`: adding a challenge `0f`, adding a token
`0e` and dropping the token `ab` each leave the other table, `m_lastDbCleanup` and
the rows under the other keys as they were. -/
theorem writes_are_local_witness :
    (addChallenge { sampleChallenge with nonce := "0f" } busyStore).tokens = busyStore.tokens ∧
    (addChallenge { sampleChallenge with nonce := "0f" } busyStore).challenges =
      busyStore.challenges ++
        [{ nonce := "0f", fingerprint := "cd", difficulty := .integer 4, epoch := .integer 1000 }] ∧
    (addToken { sampleToken with token := "0e" } busyStore).challenges = busyStore.challenges ∧
    (dropToken "ab" busyStore).challenges = busyStore.challenges ∧
    (dropToken "ab" busyStore).m_lastDbCleanup = busyStore.m_lastDbCleanup ∧
    (dropToken "ab" busyStore).tokens.filter (fun r => r.token == "0f") =
      [{ token := "0f", fingerprint := "cd", epoch := .integer 9000 }] :=
  have h := writes_are_local busyStore { sampleChallenge with nonce := "0f" }
    { sampleToken with token := "0e" } "ab"
  ⟨h.1.1, by decide, h.2.1.1, h.2.2.1, h.2.2.2.1,
    (h.2.2.2.2 "0f" (by decide)).trans (by decide)⟩

end Db
